import Mathlib

/-!
# PayArk SDK — verification of the HTTP transport and webhook verifier

A shallow embedding, in Lean 4, of the algorithmic core of the `@payark/sdk`
TypeScript library: the error classifier (`src/errors.ts`), the HTTP
transport retry loop (`src/http.ts`) and the webhook signature verifier
(`src/resources/webhooks.ts`).

JavaScript strings are modelled as `List Char`; JavaScript numbers that the
code uses as integers (HTTP statuses, timestamps, retry counts) are modelled
as `Int`/`Nat`; millisecond delays (which mix integers with the fractional
jitter `Math.random() * 200`) are modelled as `ℚ`.  Platform primitives that
are not part of the repository (`Date.now`, `Date.parse`, `Math.random`,
`JSON.parse`, the `fetch` transport itself) enter as explicit parameters of
the embedded functions; `crypto.subtle`'s HMAC-SHA-256 is implemented
concretely below so that digests are computable.
-/

namespace PayArk

/-- JavaScript strings, modelled as their list of Unicode scalar values. -/
abbrev Str := List Char

/-! ## JavaScript string primitives -/

/-- Decimal digit test, `0x30 ≤ c ≤ 0x39` — the characters accepted by
`parseInt(_, 10)` and by the regex `/^\d+$/`. -/
def isDigitChar (c : Char) : Bool := 48 ≤ c.toNat && c.toNat ≤ 57

/-- JavaScript whitespace skipped by `parseInt` / removed by `trim`
(space, tab, newline, carriage return, form feed, vertical tab). -/
def isJsWhitespace (c : Char) : Bool :=
  c = ' ' || c = '\t' || c = '\n' || c = '\r' || c.toNat = 12 || c.toNat = 11

/-- `String.prototype.trim`: strip JavaScript whitespace from both ends. -/
def trimJS (s : Str) : Str :=
  ((s.dropWhile isJsWhitespace).reverse.dropWhile isJsWhitespace).reverse

/-- Numeric value of a list of decimal digit characters, most significant
first — the accumulator loop at the heart of `parseInt(_, 10)`. -/
def digitsVal (ds : Str) : Nat :=
  ds.foldl (fun acc c => acc * 10 + (c.toNat - 48)) 0

/-- The longest decimal-digit prefix of `s`, as a number; `none` when the
prefix is empty (the `NaN` outcome of `parseInt`). -/
def digitsPrefix (s : Str) : Option Nat :=
  let ds := s.takeWhile isDigitChar
  if ds = [] then none else some (digitsVal ds)

/-- `parseInt(s, 10)`: skip leading whitespace, take an optional sign, then
the longest digit prefix; no digits means `NaN`, modelled as `none`. -/
def parseIntJS (s : Str) : Option Int :=
  let t := s.dropWhile isJsWhitespace
  match t with
  | [] => none
  | c :: rest =>
    if c = '-' then (digitsPrefix rest).map (fun n => -(n : Int))
    else if c = '+' then (digitsPrefix rest).map (fun n => (n : Int))
    else (digitsPrefix t).map (fun n => (n : Int))

/-- The decimal digit characters in order. -/
def decDigits : Str := "0123456789".toList

/-- Character of a single decimal digit. -/
def digitChar (n : Nat) : Char := decDigits.getD (n % 10) '0'

/-- Decimal digits of `n`, most significant first, by repeated division;
`fuel` bounds the recursion and any `fuel ≥ number of digits` is enough. -/
def natDigitsAux : Nat → Nat → Str
  | 0, _ => []
  | fuel + 1, n => if n = 0 then [] else natDigitsAux fuel (n / 10) ++ [digitChar (n % 10)]

/-- Decimal rendering of a natural number, as JavaScript's number-to-string
conversion produces for non-negative integers. -/
def natToStr (n : Nat) : Str :=
  if n = 0 then ['0'] else natDigitsAux (n + 1) n

/-- Decimal rendering of an integer — the `${x}` template interpolation for
an integral JavaScript number. -/
def intToStr : Int → Str
  | .ofNat n => natToStr n
  | .negSucc m => '-' :: natToStr (m + 1)

/-- `s.split(sep)` for a single-character separator: split on every
occurrence, keeping empty segments (`"".split(",") = [""]`). -/
def splitOn (sep : Char) : Str → List Str
  | [] => [[]]
  | c :: rest =>
    let gs := splitOn sep rest
    if c = sep then [] :: gs else (c :: gs.headI) :: gs.tail

/-! ## Error classifier (`src/errors.ts`)

The live `errors.ts` declares the `PayArkErrorCode` union, the `PayArkError`
base class with its `generate` factory, and one subclass per status family.
Error *instances* are modelled as plain records carrying the fields every
`PayArkError` exposes (`name`, `message`, `statusCode`, `code`, `raw`); each
subclass constructor becomes a function producing such a record. -/

/-- The `PayArkErrorCode` union of machine-readable error codes. -/
inductive PayArkErrorCode where
  | authentication_error
  | permission_error
  | invalid_request_error
  | not_found_error
  | rate_limit_error
  | api_error
  | connection_error
  | unknown_error
  deriving DecidableEq, Repr

/-- `PayArkErrorBody`, the error response shape `{ error: string, details?: any }`.
The `error` field is `Option`al because the value comes from `response.json()`
on an arbitrary body (the `details` payload is never read by the SDK and is
not modelled). -/
structure PayArkErrorBody where
  error : Option Str
  deriving DecidableEq, Repr

/-- A `PayArkError` instance: `name` (the subclass tag set in each
constructor), `message`, `statusCode`, machine-readable `code`, and the raw
upstream body when available. -/
structure PayArkErr where
  name : Str
  message : Str
  statusCode : Int
  code : PayArkErrorCode
  raw : Option PayArkErrorBody
  deriving DecidableEq, Repr

/-- JavaScript `a || b` for an optional string `a`: `b` when `a` is
`undefined` or the (falsy) empty string. -/
def jsOrStr (a : Option Str) (b : Str) : Str :=
  match a with
  | some s => if s = [] then b else s
  | none => b

/-- The synthesized `Request failed with status N` fallback message. -/
def defaultFailMsg (status : Int) : Str :=
  "Request failed with status ".toList ++ intToStr status

/-- `new PayArkAuthenticationError(msg, raw)` — 401. -/
def PayArkAuthenticationError (message : Str) (raw : Option PayArkErrorBody) : PayArkErr :=
  { name := "PayArkAuthenticationError".toList, message := message, statusCode := 401,
    code := .authentication_error, raw := raw }

/-- `new PayArkPermissionError(msg, raw)` — 403. -/
def PayArkPermissionError (message : Str) (raw : Option PayArkErrorBody) : PayArkErr :=
  { name := "PayArkPermissionError".toList, message := message, statusCode := 403,
    code := .permission_error, raw := raw }

/-- `new PayArkInvalidRequestError(msg, status, raw)` — 400/422. -/
def PayArkInvalidRequestError (message : Str) (statusCode : Int)
    (raw : Option PayArkErrorBody) : PayArkErr :=
  { name := "PayArkInvalidRequestError".toList, message := message, statusCode := statusCode,
    code := .invalid_request_error, raw := raw }

/-- `new PayArkNotFoundError(msg, raw)` — 404. -/
def PayArkNotFoundError (message : Str) (raw : Option PayArkErrorBody) : PayArkErr :=
  { name := "PayArkNotFoundError".toList, message := message, statusCode := 404,
    code := .not_found_error, raw := raw }

/-- `new PayArkRateLimitError(msg, raw)` — 429. -/
def PayArkRateLimitError (message : Str) (raw : Option PayArkErrorBody) : PayArkErr :=
  { name := "PayArkRateLimitError".toList, message := message, statusCode := 429,
    code := .rate_limit_error, raw := raw }

/-- `new PayArkAPIError(msg, status, raw)` — 500+. -/
def PayArkAPIError (message : Str) (statusCode : Int)
    (raw : Option PayArkErrorBody) : PayArkErr :=
  { name := "PayArkAPIError".toList, message := message, statusCode := statusCode,
    code := .api_error, raw := raw }

/-- `new PayArkConnectionError(msg)` — status 0; note its constructor takes
no raw body. -/
def PayArkConnectionError (message : Str) : PayArkErr :=
  { name := "PayArkConnectionError".toList, message := message, statusCode := 0,
    code := .connection_error, raw := none }

/-- `new PayArkSignatureVerificationError(msg)`: the webhook verification
failure class; its constructor calls `super(message, 400, "invalid_request_error")`. -/
def PayArkSignatureVerificationError (message : Str) : PayArkErr :=
  { name := "PayArkSignatureVerificationError".toList, message := message, statusCode := 400,
    code := .invalid_request_error, raw := none }

/-- `PayArkError.generate(status, data?, message?)`: the factory that picks
the error subclass from the HTTP status, with message resolution
`message || data?.error || "Request failed with status N"`. -/
def PayArkError.generate (status : Int) (data : Option PayArkErrorBody)
    (message : Option Str) : PayArkErr :=
  let msg := jsOrStr message (jsOrStr (data.bind (fun d => d.error)) (defaultFailMsg status))
  if status = 401 then PayArkAuthenticationError msg data
  else if status = 403 then PayArkPermissionError msg data
  else if status = 400 ∨ status = 422 then PayArkInvalidRequestError msg status data
  else if status = 404 then PayArkNotFoundError msg data
  else if status = 429 then PayArkRateLimitError msg data
  else if status = 0 then PayArkConnectionError msg
  else if 500 ≤ status then PayArkAPIError msg status data
  else { name := "PayArkError".toList, message := msg, statusCode := status,
         code := .unknown_error, raw := data }

/-- The legacy `errorCodeFromStatus` helper, still present in `errors.ts`
from an earlier revision of the module (it has no 403 and no 0 case and is
not called by the transport, which classifies through `PayArkError.generate`). -/
def errorCodeFromStatus (status : Int) : PayArkErrorCode :=
  if status = 401 then .authentication_error
  else if status = 400 ∨ status = 422 then .invalid_request_error
  else if status = 404 then .not_found_error
  else if status = 429 then .rate_limit_error
  else if 500 ≤ status then .api_error
  else .unknown_error

/-! ## HMAC-SHA-256 (the `crypto.subtle` platform primitive)

`webhooks.ts` signs `"{timestamp}.{rawBody}"` with
`crypto.subtle.sign("HMAC", key, msg)` over SHA-256.  The Web Crypto
primitive is not repository code; it is realised here concretely (FIPS 180-4
/ RFC 2104) so digests are computable.  32-bit words are `Nat` reduced
explicitly modulo `2 ^ 32`. -/

/-- `TextEncoder().encode`: UTF-8 bytes of one Unicode scalar value. -/
def utf8Char (c : Char) : List Nat :=
  let n := c.toNat
  if n < 128 then [n]
  else if n < 2048 then [192 + n / 64, 128 + n % 64]
  else if n < 65536 then [224 + n / 4096, 128 + n / 64 % 64, 128 + n % 64]
  else [240 + n / 262144, 128 + n / 4096 % 64, 128 + n / 64 % 64, 128 + n % 64]

/-- `TextEncoder().encode` over a whole string. -/
def utf8Encode (s : Str) : List Nat := (s.map utf8Char).flatten

/-- Right rotation of a 32-bit word. -/
def rotr32 (n x : Nat) : Nat := ((x >>> n) ||| (x <<< (32 - n))) % 4294967296

/-- SHA-256 Σ₀. -/
def bigSigma0 (x : Nat) : Nat := (rotr32 2 x) ^^^ (rotr32 13 x) ^^^ (rotr32 22 x)

/-- SHA-256 Σ₁. -/
def bigSigma1 (x : Nat) : Nat := (rotr32 6 x) ^^^ (rotr32 11 x) ^^^ (rotr32 25 x)

/-- SHA-256 σ₀. -/
def smallSigma0 (x : Nat) : Nat := (rotr32 7 x) ^^^ (rotr32 18 x) ^^^ (x >>> 3)

/-- SHA-256 σ₁. -/
def smallSigma1 (x : Nat) : Nat := (rotr32 17 x) ^^^ (rotr32 19 x) ^^^ (x >>> 10)

/-- SHA-256 choice function. -/
def sha256Ch (x y z : Nat) : Nat := (x &&& y) ^^^ ((x ^^^ 4294967295) &&& z)

/-- SHA-256 majority function. -/
def sha256Maj (x y z : Nat) : Nat := (x &&& y) ^^^ (x &&& z) ^^^ (y &&& z)

/-- The 64 SHA-256 round constants. -/
def sha256K : List Nat :=
  [1116352408, 1899447441, 3049323471, 3921009573, 961987163,
   1508970993, 2453635748, 2870763221, 3624381080, 310598401,
   607225278, 1426881987, 1925078388, 2162078206, 2614888103,
   3248222580, 3835390401, 4022224774, 264347078, 604807628,
   770255983, 1249150122, 1555081692, 1996064986, 2554220882,
   2821834349, 2952996808, 3210313671, 3336571891, 3584528711,
   113926993, 338241895, 666307205, 773529912, 1294757372,
   1396182291, 1695183700, 1986661051, 2177026350, 2456956037,
   2730485921, 2820302411, 3259730800, 3345764771, 3516065817,
   3600352804, 4094571909, 275423344, 430227734, 506948616,
   659060556, 883997877, 958139571, 1322822218, 1537002063,
   1747873779, 1955562222, 2024104815, 2227730452, 2361852424,
   2428436474, 2756734187, 3204031479, 3329325298]

/-- The eight 32-bit working variables of the compression function. -/
structure Sha256State where
  a : Nat
  b : Nat
  c : Nat
  d : Nat
  e : Nat
  f : Nat
  g : Nat
  h : Nat
  deriving DecidableEq, Repr

/-- The SHA-256 initial hash value. -/
def sha256Init : Sha256State :=
  ⟨0x6a09e667, 0xbb67ae85, 0x3c6ef372, 0xa54ff53a,
   0x510e527f, 0x9b05688c, 0x1f83d9ab, 0x5be0cd19⟩

/-- One SHA-256 round. -/
def sha256Round (st : Sha256State) (k w : Nat) : Sha256State :=
  let t1 := (st.h + bigSigma1 st.e + sha256Ch st.e st.f st.g + k + w) % 4294967296
  let t2 := (bigSigma0 st.a + sha256Maj st.a st.b st.c) % 4294967296
  { a := (t1 + t2) % 4294967296, b := st.a, c := st.b, d := st.c,
    e := (st.d + t1) % 4294967296, f := st.e, g := st.f, h := st.g }

/-- Big-endian 32-bit words from a byte list, four bytes at a time. -/
def bytesToWords : List Nat → List Nat
  | b0 :: b1 :: b2 :: b3 :: rest =>
    (b0 * 16777216 + b1 * 65536 + b2 * 256 + b3) :: bytesToWords rest
  | _ => []

/-- Extend the message schedule; `rev` holds the words produced so far, most
recent first, and `n` counts the words still to produce. -/
def sha256Extend : Nat → List Nat → List Nat
  | 0, rev => rev.reverse
  | n + 1, rev =>
    let w := (smallSigma1 (rev.getD 1 0) + rev.getD 6 0 +
              smallSigma0 (rev.getD 14 0) + rev.getD 15 0) % 4294967296
    sha256Extend n (w :: rev)

/-- The 64-word message schedule of one block. -/
def sha256Schedule (ws : List Nat) : List Nat := sha256Extend 48 ws.reverse

/-- Compress one 64-byte block into the running state. -/
def sha256Compress (st : Sha256State) (block : List Nat) : Sha256State :=
  let ws := sha256Schedule (bytesToWords block)
  let r := (sha256K.zip ws).foldl (fun s kw => sha256Round s kw.1 kw.2) st
  { a := (st.a + r.a) % 4294967296, b := (st.b + r.b) % 4294967296,
    c := (st.c + r.c) % 4294967296, d := (st.d + r.d) % 4294967296,
    e := (st.e + r.e) % 4294967296, f := (st.f + r.f) % 4294967296,
    g := (st.g + r.g) % 4294967296, h := (st.h + r.h) % 4294967296 }

/-- Fold the compression over all 64-byte blocks; `fuel ≥ number of blocks`
makes the recursion structural. -/
def sha256Blocks : Nat → Sha256State → List Nat → Sha256State
  | 0, st, _ => st
  | fuel + 1, st, msg =>
    if msg = [] then st
    else sha256Blocks fuel (sha256Compress st (msg.take 64)) (msg.drop 64)

/-- The 8-byte big-endian bit length trailer of the padding. -/
def lenBytes64 (n : Nat) : List Nat :=
  [n / 72057594037927936 % 256, n / 281474976710656 % 256,
   n / 1099511627776 % 256, n / 4294967296 % 256,
   n / 16777216 % 256, n / 65536 % 256, n / 256 % 256, n % 256]

/-- SHA-256 padding: `0x80`, zeros to 56 mod 64, then the bit length. -/
def sha256Pad (msg : List Nat) : List Nat :=
  msg ++ [128] ++ List.replicate ((119 - msg.length % 64) % 64) 0 ++
    lenBytes64 (msg.length * 8 % 18446744073709551616)

/-- Big-endian bytes of one 32-bit word. -/
def wordBytes (w : Nat) : List Nat :=
  [w / 16777216 % 256, w / 65536 % 256, w / 256 % 256, w % 256]

/-- SHA-256 of a byte list. -/
def sha256 (msg : List Nat) : List Nat :=
  let padded := sha256Pad msg
  let st := sha256Blocks padded.length sha256Init padded
  wordBytes st.a ++ wordBytes st.b ++ wordBytes st.c ++ wordBytes st.d ++
    wordBytes st.e ++ wordBytes st.f ++ wordBytes st.g ++ wordBytes st.h

/-- HMAC-SHA-256 (RFC 2104): keys longer than the 64-byte block are hashed,
shorter ones zero-padded; then `H((k ⊕ opad) ∥ H((k ⊕ ipad) ∥ msg))`. -/
def hmacSha256 (key msg : List Nat) : List Nat :=
  let k0 := if 64 < key.length then sha256 key else key
  let k := k0 ++ List.replicate (64 - k0.length) 0
  let inner := sha256 ((k.map (fun b => b ^^^ 54)) ++ msg)
  sha256 ((k.map (fun b => b ^^^ 92)) ++ inner)

/-- The lowercase hexadecimal digit characters in order. -/
def hexAlphabet : Str := "0123456789abcdef".toList

/-- One lowercase hex digit. -/
def hexDigitChar (n : Nat) : Char := hexAlphabet.getD n '0'

/-- `b.toString(16).padStart(2, "0")` for a byte value. -/
def byteToHex (b : Nat) : Str := [hexDigitChar (b / 16 % 16), hexDigitChar (b % 16)]

/-- `hmacSHA256Hex(data, secret)` from `webhooks.ts`: HMAC-SHA-256 over the
UTF-8 bytes, rendered as lowercase hex. -/
def hmacSHA256Hex (data secret : Str) : Str :=
  ((hmacSha256 (utf8Encode secret) (utf8Encode data)).map byteToHex).flatten

/-! ## Webhook verifier (`src/resources/webhooks.ts`) -/

/-- Default tolerance: 5 minutes. -/
def DEFAULT_TOLERANCE_SECONDS : Int := 300

/-- Parsed signature header components. -/
structure ParsedSignature where
  timestamp : Int
  signature : Str
  deriving DecidableEq, Repr

/-- The two `let` variables of `parseHeader`'s `for` loop.  `timestamp`'s
outer `Option` is "was it assigned", the inner one is "was it a number or
`NaN`"; `signature` is `string | undefined`. -/
structure ParseState where
  timestamp : Option (Option Int)
  signature : Option Str
  deriving DecidableEq, Repr

/-- The key of one `key=value` part: `part.split("=", 2)[0]`. -/
def headerKey (part : Str) : Str := ((splitOn '=' part).take 2).headI

/-- The value of one `key=value` part: `part.split("=", 2)[1]`, which is
`undefined` when the part has no `=` (JS `split` with a limit truncates). -/
def headerValue (part : Str) : Option Str := ((splitOn '=' part).take 2).get? 1

/-- One iteration of `parseHeader`'s `for (const part of parts)` loop;
`parseInt(undefined, 10)` is `NaN`, and a `v1` with no value *overwrites*
`signature` with `undefined`. -/
def parseHeaderStep (st : ParseState) (part : Str) : ParseState :=
  if headerKey part = ['t'] then
    { st with timestamp := some ((headerValue part).bind parseIntJS) }
  else if headerKey part = ['v', '1'] then { st with signature := headerValue part }
  else st

/-- `WebhooksResource.parseHeader`: split on commas, scan the `key=value`
parts, and fail (`null`) when the timestamp is unassigned or `NaN` or the
signature is missing or (falsy) empty. -/
def parseHeader (header : Str) : Option ParsedSignature :=
  if header = [] then none
  else
    let parts := splitOn ',' header
    let st := parts.foldl parseHeaderStep ⟨none, none⟩
    match st.timestamp, st.signature with
    | some (some ts), some sig => if sig = [] then none else some ⟨ts, sig⟩
    | _, _ => none

/-- `constantTimeEqual`: length check, then an OR-accumulated XOR scan of
the char codes. -/
def constantTimeEqual (a b : Str) : Bool :=
  if a.length ≠ b.length then false
  else decide ((a.zip b).foldl (fun result p => result ||| (p.1.toNat ^^^ p.2.toNat)) 0 = 0)

/-- The three verification failure messages. -/
def msgUnableExtract : Str := "Unable to extract timestamp and signature from header".toList

/-- Tolerance failure message. -/
def msgTimestampTolerance : Str := "Timestamp outside the tolerance zone".toList

/-- Mismatch failure message. -/
def msgSignatureMismatch : Str := "Signature did not match".toList

/-- `WebhooksResource.verifySignature`.  `now` is the platform's
`Math.floor(Date.now() / 1000)`, passed explicitly. -/
def verifySignature (rawBody signatureHeader secret : Str) (toleranceSeconds : Int)
    (now : Int) : Except PayArkErr Unit :=
  match parseHeader signatureHeader with
  | none => .error (PayArkSignatureVerificationError msgUnableExtract)
  | some parsed =>
    if 0 < toleranceSeconds ∧ toleranceSeconds < |now - parsed.timestamp| then
      .error (PayArkSignatureVerificationError msgTimestampTolerance)
    else
      let signedContent := intToStr parsed.timestamp ++ '.' :: rawBody
      let expected := hmacSHA256Hex signedContent secret
      if constantTimeEqual parsed.signature expected then .ok ()
      else .error (PayArkSignatureVerificationError msgSignatureMismatch)

/-- Failures of `constructEvent`: a verification error, or the `SyntaxError`
that `JSON.parse` raises on a non-JSON body. -/
inductive ConstructErr where
  | verification (e : PayArkErr)
  | syntaxError
  deriving DecidableEq, Repr

/-- `WebhooksResource.constructEvent`: verify, then `JSON.parse(rawBody)`.
`JSON.parse` is a platform primitive and enters as the `jsonParse`
parameter; `none` models its `SyntaxError`. -/
def constructEvent {J : Type} (jsonParse : Str → Option J)
    (rawBody signatureHeader secret : Str) (toleranceSeconds : Int) (now : Int) :
    Except ConstructErr J :=
  match verifySignature rawBody signatureHeader secret toleranceSeconds now with
  | .error e => .error (.verification e)
  | .ok _ =>
    match jsonParse rawBody with
    | some ev => .ok ev
    | none => .error .syntaxError

/-- The well-formed signature header `t=<T>,v1=<D>` of the claims. -/
def sigHeader (T : Int) (D : Str) : Str :=
  "t=".toList ++ intToStr T ++ ",v1=".toList ++ D

/-! ## HTTP transport (`src/http.ts`)

The transport executes one logical request as a bounded loop of physical
attempts.  The network (`fetch` plus the `response.json()` parses), the
jitter source `Math.random() * 200`, the `Date.parse` of a `Retry-After`
date and the clock `Date.now()` are platform effects and enter as explicit
parameters; one `FetchResult` describes everything attempt `i` observes.
The loop returns a `Trace`: the result, the number of physical attempts,
the sleeps between attempts, and the header set handed to `fetch` on each
attempt. -/

instance {ε α : Type} [DecidableEq ε] [DecidableEq α] : DecidableEq (Except ε α) :=
  fun x y =>
    match x, y with
    | .ok a, .ok b =>
      if h : a = b then .isTrue (by rw [h])
      else .isFalse (fun he => h (Except.ok.inj he))
    | .error a, .error b =>
      if h : a = b then .isTrue (by rw [h])
      else .isFalse (fun he => h (Except.error.inj he))
    | .ok _, .error _ => .isFalse (fun he => Except.noConfusion he)
    | .error _, .ok _ => .isFalse (fun he => Except.noConfusion he)

/-- `const SDK_VERSION = "0.1.0"`. -/
def SDK_VERSION : Str := "0.1.0".toList

/-- The five HTTP methods of the SDK. -/
inductive HttpMethod where
  | GET
  | POST
  | PUT
  | PATCH
  | DELETE
  deriving DecidableEq, Repr

/-- `RETRYABLE_STATUS_CODES = new Set([429, 500, 502, 503, 504])`. -/
def RETRYABLE_STATUS_CODES : List Int := [429, 500, 502, 503, 504]

/-- `MUTATING_METHODS = new Set(["POST", "PUT", "PATCH"])`. -/
def MUTATING_METHODS : List HttpMethod := [.POST, .PUT, .PATCH]

/-- The `PayArkConfig` consumed by the constructor; every optional field
models the `??` defaulting in `http.ts`. -/
structure PayArkConfig where
  apiKey : Option Str
  baseUrl : Option Str
  timeout : Option Nat
  maxRetries : Option Nat
  sandbox : Option Bool

/-- The private fields a constructed `HttpClient` stores. -/
structure HttpClientData where
  apiKey : Str
  baseUrl : Str
  timeout : Nat
  maxRetries : Nat
  sandbox : Bool
  deriving DecidableEq, Repr

/-- The default production base URL. -/
def defaultBaseUrl : Str := "https://api.payark.com".toList

/-- `baseUrl.replace(TRAILING_SLASH_REGEX, "")`. -/
def dropTrailingSlashes (s : Str) : Str :=
  (s.reverse.dropWhile (fun c => decide (c = '/'))).reverse

/-- The constructor's 401 message. -/
def apiKeyRequiredMsg : Str :=
  "An API key is required. Pass it as `apiKey` in the PayArk config.".toList

/-- The `HttpClient` constructor: rejects an absent, empty or all-whitespace
API key with a generated 401 before any request; otherwise stores the
trimmed key and the defaulted configuration. -/
def mkHttpClient (config : PayArkConfig) : Except PayArkErr HttpClientData :=
  if config.apiKey = none ∨ config.apiKey = some [] ∨
      trimJS (config.apiKey.getD []) = [] then
    .error (PayArkError.generate 401 none (some apiKeyRequiredMsg))
  else
    .ok { apiKey := trimJS (config.apiKey.getD []),
          baseUrl := dropTrailingSlashes (config.baseUrl.getD defaultBaseUrl),
          timeout := config.timeout.getD 30000,
          maxRetries := config.maxRetries.getD 2,
          sandbox := config.sandbox.getD false }

/-- String-keyed JavaScript record entries (headers, search params). -/
abbrev StrPairs := List (Str × Str)

/-- Property assignment `obj[k] = v` / `searchParams.set(k, v)`: replace the
entry holding the key in place, else append (JavaScript records hold each
key at most once). -/
def setPair : StrPairs → Str → Str → StrPairs
  | [], k, v => [(k, v)]
  | p :: t, k, v => if p.1 = k then (k, v) :: t else p :: setPair t k v

/-- Record lookup `obj[k]`. -/
def lookupPair : StrPairs → Str → Option Str
  | [], _ => none
  | p :: t, k => if p.1 = k then some p.2 else lookupPair t k

/-- `HttpClient.buildHeaders(extra?, idempotencyKey?)`: the default header
object, then the idempotency key (when truthy), the sandbox marker, and the
caller's extra headers `Object.assign`ed last. -/
def buildHeaders (client : HttpClientData) (extra : Option StrPairs)
    (idempotencyKey : Option Str) : StrPairs :=
  let base : StrPairs :=
    [("Authorization".toList, "Bearer ".toList ++ client.apiKey),
     ("Content-Type".toList, "application/json".toList),
     ("Accept".toList, "application/json".toList),
     ("User-Agent".toList, "payark-sdk-node/".toList ++ SDK_VERSION)]
  let h1 := match idempotencyKey with
    | some k => if k ≠ [] then setPair base "Idempotency-Key".toList k else base
    | none => base
  let h2 := if client.sandbox then setPair h1 "x-sandbox-mode".toList "true".toList else h1
  match extra with
  | some ex => ex.foldl (fun acc kv => setPair acc kv.1 kv.2) h2
  | none => h2

/-- A query parameter value: `string | number | undefined` (plus the `null`
the runtime check also filters). -/
inductive QueryVal where
  | str (s : Str)
  | num (n : Int)
  | undef
  | nul
  deriving DecidableEq, Repr

/-- JavaScript `String(value)`. -/
def jsStringOfQuery : QueryVal → Str
  | .str s => s
  | .num n => intToStr n
  | .undef => "undefined".toList
  | .nul => "null".toList

/-- The `value !== undefined && value !== null` filter, negated. -/
def isNullish : QueryVal → Bool
  | .undef => true
  | .nul => true
  | _ => false

/-- The constructed request URL: base plus search parameters. -/
structure UrlModel where
  base : Str
  params : StrPairs
  deriving DecidableEq, Repr

/-- `HttpClient.buildUrl(path, query?)`: `new URL(baseUrl + path)`, then
`searchParams.set(key, String(value))` for every non-nullish entry. -/
def buildUrl (client : HttpClientData) (path : Str)
    (query : Option (List (Str × QueryVal))) : UrlModel :=
  let url : UrlModel := { base := client.baseUrl ++ path, params := [] }
  match query with
  | none => url
  | some q =>
    { url with params :=
        q.foldl (fun ps kv =>
          if isNullish kv.2 then ps else setPair ps kv.1 (jsStringOfQuery kv.2)) [] }

/-- Everything one physical attempt observes from the platform.
`response status okBody errBody retryAfter` is an HTTP response:
`okBody` is `await response.json()` as the success type (`.error m` models
that parse throwing with message `m`), `errBody` the tolerated JSON parse
of a non-2xx body, `retryAfter` the `Retry-After` header.  `abortError` is
the `AbortError` of the armed timeout; `networkError m` any other thrown
transport fault. -/
inductive FetchResult (β : Type) where
  | response (status : Int) (okBody : Except Str β)
      (errBody : Option PayArkErrorBody) (retryAfter : Option Str)
  | abortError
  | networkError (msg : Str)

/-- `Response.ok`: a 2xx status. -/
def isOkStatus (s : Int) : Bool := 200 ≤ s && s ≤ 299

/-- The `Retry-After` delay of a 429: an all-digits value is whole seconds,
anything else is tried as an HTTP date against the clock `nowMs`
(`Date.parse` is the platform's, passed in; `none` models `NaN`). -/
def retryAfterOf (dateParse : Str → Option Int) (nowMs : Int)
    (retryHeader : Option Str) : ℚ :=
  match retryHeader with
  | none => 0
  | some h =>
    if h = [] then 0
    else if h.all isDigitChar then (((digitsVal h : Int) * 1000 : Int) : ℚ)
    else match dateParse h with
      | some d => ((max 0 (d - nowMs) : Int) : ℚ)
      | none => 0

/-- The timeout-abort message `Request timed out after Nms`. -/
def timeoutMsg (requestTimeout : Nat) : Str :=
  "Request timed out after ".toList ++ natToStr requestTimeout ++ "ms".toList

/-- The generic transport-fault message `Network error: ...`. -/
def networkMsg (m : Str) : Str := "Network error: ".toList ++ m

/-- The `Request failed after retries` fallback of the final `throw`. -/
def fallbackRetriesError : PayArkErr :=
  { name := "PayArkError".toList, message := "Request failed after retries".toList,
    statusCode := 0, code := .unknown_error, raw := none }

/-- The observable outcome of one logical request. -/
structure Trace (β : Type) where
  result : Except PayArkErr β
  attempts : Nat
  sleeps : List ℚ
  sentHeaders : List StrPairs

/-- What one loop iteration decides after observing its `FetchResult`:
either the loop is over (`done` with the value returned or the error
raised), or the attempt failed retryably (`retry` with the error recorded
into `lastError` and the server-directed `Retry-After` delay, 0 when none).
-/
inductive StepOutcome (β : Type) where
  | done (r : Except PayArkErr β)
  | retry (e : PayArkErr) (retryAfterMs : ℚ)

/-- The body of one `try`/`catch` iteration of `HttpClient.request`:
a 2xx returns (204 yields the empty object `emptyVal`; a success body whose
JSON parse throws is caught as a generic fault and retried); a non-2xx
builds the classified error, computes the 429 `Retry-After` delay, and
either retries (retryable status) or re-raises — the `throw lastError`
inside `try` is caught by the `catch`, which re-raises exactly when the
caught `PayArkError`'s status is positive and non-retryable; `AbortError`
and other transport faults record a status-0 connection-class error and
retry. -/
def attemptStep {β : Type} (dateParse : Str → Option Int) (nowMs : Int)
    (requestTimeout : Nat) (emptyVal : β) : FetchResult β → StepOutcome β
  | .response status okBody errBody retryAfter =>
    if isOkStatus status then
      if status = 204 then .done (.ok emptyVal)
      else
        match okBody with
        | .ok v => .done (.ok v)
        | .error m => .retry (PayArkError.generate 0 none (some (networkMsg m))) 0
    else
      let lastErr := PayArkError.generate status errBody (errBody.bind (fun b => b.error))
      let retryAfterMs := if status = 429 then retryAfterOf dateParse nowMs retryAfter else 0
      if status ∈ RETRYABLE_STATUS_CODES then .retry lastErr retryAfterMs
      else if 0 < lastErr.statusCode ∧ lastErr.statusCode ∉ RETRYABLE_STATUS_CODES then
        .done (.error lastErr)
      else .retry lastErr retryAfterMs
  | .abortError =>
    .retry (PayArkError.generate 0 none (some (timeoutMsg requestTimeout))) 0
  | .networkError m =>
    .retry (PayArkError.generate 0 none (some (networkMsg m))) 0

/-- The `for (let attempt = 0; attempt <= maxRetries; attempt++)` loop of
`HttpClient.request`, one constructor case per iteration; `fuel` makes the
recursion structural and `request` enters with `fuel = maxRetries + 1`,
`attempt = 0`.  Each iteration hands `headers` to `fetch` (recorded in
`sent`), runs `attemptStep`, and on a retryable failure sleeps — the
positive server-directed delay, else exponential back-off `500·2^attempt`
plus `jitter attempt` — whenever attempts remain. -/
def requestLoop {β : Type} (outcomes : Nat → FetchResult β) (jitter : Nat → ℚ)
    (dateParse : Str → Option Int) (nowMs : Int) (maxRetries : Nat)
    (requestTimeout : Nat) (headers : StrPairs) (emptyVal : β) :
    Nat → Nat → Option PayArkErr → List ℚ → List StrPairs → Trace β
  | 0, attempt, lastError, sleeps, sent =>
    { result := .error (lastError.getD fallbackRetriesError), attempts := attempt,
      sleeps := sleeps, sentHeaders := sent }
  | fuel + 1, attempt, _lastError, sleeps, sent =>
    let sent1 := sent ++ [headers]
    match attemptStep dateParse nowMs requestTimeout emptyVal (outcomes attempt) with
    | .done r =>
      { result := r, attempts := attempt + 1, sleeps := sleeps, sentHeaders := sent1 }
    | .retry e retryAfterMs =>
      if attempt < maxRetries then
        requestLoop outcomes jitter dateParse nowMs maxRetries requestTimeout headers
          emptyVal fuel (attempt + 1) (some e)
          (sleeps ++ [if 0 < retryAfterMs then retryAfterMs
                      else ((500 * 2 ^ attempt : Nat) : ℚ) + jitter attempt]) sent1
      else
        requestLoop outcomes jitter dateParse nowMs maxRetries requestTimeout headers
          emptyVal fuel (attempt + 1) (some e) sleeps sent1

/-- Per-request options (`query`, extra `headers`, `timeout` override; the
JSON `body` is serialised once outside the loop and affects nothing any
claim observes, so it is not modelled). -/
structure RequestOptions where
  query : List (Str × QueryVal)
  headers : Option StrPairs
  timeout : Option Nat

/-- `HttpClient.request(method, path, opts)`: the idempotency key `genKey`
(drawn once per logical call from `crypto.randomUUID()`, a platform source)
is attached for mutating methods only; the headers are built once and
reused by every attempt of the loop. -/
def HttpClient.request {β : Type} (client : HttpClientData) (method : HttpMethod)
    (opts : RequestOptions) (genKey : Str) (outcomes : Nat → FetchResult β)
    (jitter : Nat → ℚ) (dateParse : Str → Option Int) (nowMs : Int)
    (emptyVal : β) : Trace β :=
  let requestTimeout := opts.timeout.getD client.timeout
  let idempotencyKey := if method ∈ MUTATING_METHODS then some genKey else none
  let headers := buildHeaders client opts.headers idempotencyKey
  requestLoop outcomes jitter dateParse nowMs client.maxRetries requestTimeout headers
    emptyVal (client.maxRetries + 1) 0 none [] []

/-- The delay the loop sleeps after a retryable failure at attempt `i`:
the positive server-directed delay, else back-off plus jitter. -/
def attemptDelay {β : Type} (outcomes : Nat → FetchResult β) (jitter : Nat → ℚ)
    (dateParse : Str → Option Int) (nowMs : Int) (requestTimeout : Nat)
    (emptyVal : β) (i : Nat) : ℚ :=
  match attemptStep dateParse nowMs requestTimeout emptyVal (outcomes i) with
  | .done _ => 0
  | .retry _ ra => if 0 < ra then ra else ((500 * 2 ^ i : Nat) : ℚ) + jitter i

/-- The classified error the loop records for a non-2xx response. -/
def respErrOf {β : Type} : FetchResult β → PayArkErr
  | .response s _ eb _ => PayArkError.generate s eb (eb.bind (fun b => b.error))
  | _ => fallbackRetriesError

/-! ### Lemmas about the string primitives -/

theorem splitOn_ne_nil (sep : Char) (s : Str) : splitOn sep s ≠ [] := by
  cases s with
  | nil => simp [splitOn]
  | cons c rest =>
    simp only [splitOn]
    split <;> simp

theorem splitOn_of_not_mem {sep : Char} {s : Str} (h : sep ∉ s) :
    splitOn sep s = [s] := by
  induction s with
  | nil => rfl
  | cons c rest ih =>
    have hc : c ≠ sep := fun he => h (he ▸ List.mem_cons_self c rest)
    have hr : sep ∉ rest := fun hm => h (List.mem_cons_of_mem c hm)
    simp [splitOn, if_neg hc, ih hr]

theorem splitOn_append {sep : Char} {l r : Str} (h : sep ∉ l) :
    splitOn sep (l ++ sep :: r) = l :: splitOn sep r := by
  induction l with
  | nil => simp [splitOn]
  | cons c rest ih =>
    have hc : c ≠ sep := fun he => h (he ▸ List.mem_cons_self c rest)
    have hr : sep ∉ rest := fun hm => h (List.mem_cons_of_mem c hm)
    simp only [List.cons_append, splitOn, List.append_eq, if_neg hc, ih hr]
    simp [List.headI]

theorem digitsVal_append_singleton (ds : Str) (c : Char) :
    digitsVal (ds ++ [c]) = digitsVal ds * 10 + (c.toNat - 48) := by
  simp [digitsVal, List.foldl_append]

theorem digitChar_isDigit (n : Nat) : isDigitChar (digitChar n) = true := by
  have h : n % 10 < 10 := Nat.mod_lt _ (by norm_num)
  simp only [digitChar]
  revert h
  generalize n % 10 = k
  intro h
  interval_cases k <;> decide

theorem natDigitsAux_all_digits :
    ∀ fuel n, ∀ c ∈ natDigitsAux fuel n, isDigitChar c = true := by
  intro fuel
  induction fuel with
  | zero => intro n c hc; simp [natDigitsAux] at hc
  | succ fuel ih =>
    intro n c hc
    simp only [natDigitsAux] at hc
    split at hc
    · simp at hc
    · rcases List.mem_append.mp hc with h | h
      · exact ih _ c h
      · simp at h
        subst h
        exact digitChar_isDigit _

theorem digitChar_toNat (n : Nat) : (digitChar n).toNat - 48 = n % 10 := by
  have h : n % 10 < 10 := Nat.mod_lt _ (by norm_num)
  simp only [digitChar]
  revert h
  generalize n % 10 = k
  intro h
  interval_cases k <;> decide

theorem natDigitsAux_val :
    ∀ fuel n, n < 10 ^ fuel → digitsVal (natDigitsAux fuel n) = n := by
  intro fuel
  induction fuel with
  | zero =>
    intro n h
    simp only [pow_zero, Nat.lt_one_iff] at h
    subst h
    rfl
  | succ fuel ih =>
    intro n h
    by_cases h0 : n = 0
    · subst h0; simp [natDigitsAux, digitsVal]
    · have hdiv : n / 10 < 10 ^ fuel := by
        rw [Nat.div_lt_iff_lt_mul (by norm_num : 0 < 10)]
        calc n < 10 ^ (fuel + 1) := h
          _ = 10 ^ fuel * 10 := by ring
      simp only [natDigitsAux, if_neg h0]
      rw [digitsVal_append_singleton, ih _ hdiv, digitChar_toNat]
      omega

theorem natToStr_val (n : Nat) : digitsVal (natToStr n) = n := by
  by_cases h0 : n = 0
  · subst h0; rfl
  · simp only [natToStr, if_neg h0]
    exact natDigitsAux_val _ _ (by
      calc n < 2 ^ n := Nat.lt_two_pow n
        _ ≤ 10 ^ n := Nat.pow_le_pow_left (by norm_num) n
        _ ≤ 10 ^ (n + 1) := Nat.pow_le_pow_right (by norm_num) (Nat.le_succ n))

theorem natToStr_all_digits {n : Nat} : ∀ c ∈ natToStr n, isDigitChar c = true := by
  intro c hc
  by_cases h0 : n = 0
  · subst h0; simp [natToStr] at hc; subst hc; decide
  · simp only [natToStr, if_neg h0] at hc
    exact natDigitsAux_all_digits _ _ c hc

theorem natToStr_ne_nil (n : Nat) : natToStr n ≠ [] := by
  by_cases h0 : n = 0
  · subst h0; simp [natToStr]
  · simp only [natToStr, if_neg h0, natDigitsAux, ne_eq]
    simp [h0]

theorem digit_not_ws {c : Char} (h : isDigitChar c = true) : isJsWhitespace c = false := by
  simp only [isDigitChar, Bool.and_eq_true, decide_eq_true_eq] at h
  simp only [isJsWhitespace, Bool.or_eq_false_iff, decide_eq_false_iff_not]
  refine ⟨⟨⟨⟨⟨?_, ?_⟩, ?_⟩, ?_⟩, ?_⟩, ?_⟩
  · intro he; rw [he] at h; revert h; decide
  · intro he; rw [he] at h; revert h; decide
  · intro he; rw [he] at h; revert h; decide
  · intro he; rw [he] at h; revert h; decide
  · omega
  · omega

theorem digit_ne_special {c : Char} (h : isDigitChar c = true) :
    c ≠ ',' ∧ c ≠ '=' ∧ c ≠ '-' ∧ c ≠ '+' := by
  simp only [isDigitChar, Bool.and_eq_true, decide_eq_true_eq] at h
  refine ⟨?_, ?_, ?_, ?_⟩ <;> (intro he; rw [he] at h; revert h; decide)

theorem takeWhile_of_all {p : Char → Bool} :
    ∀ {l : Str}, (∀ a ∈ l, p a = true) → l.takeWhile p = l := by
  intro l
  induction l with
  | nil => intro _; rfl
  | cons c rest ih =>
    intro h
    rw [List.takeWhile_cons, if_pos (h c (List.mem_cons_self c rest))]
    rw [ih (fun a ha => h a (List.mem_cons_of_mem c ha))]

theorem dropWhile_ws_of_digits {l : Str} (hne : l ≠ [])
    (hd : ∀ a ∈ l, isDigitChar a = true) : l.dropWhile isJsWhitespace = l := by
  cases l with
  | nil => exact absurd rfl hne
  | cons c rest =>
    rw [List.dropWhile_cons, if_neg]
    simp [digit_not_ws (hd c (List.mem_cons_self c rest))]

theorem digitsPrefix_of_digits {l : Str} (hne : l ≠ [])
    (hd : ∀ a ∈ l, isDigitChar a = true) : digitsPrefix l = some (digitsVal l) := by
  simp only [digitsPrefix, takeWhile_of_all hd, if_neg hne]

theorem parseIntJS_of_digits {l : Str} (hne : l ≠ [])
    (hd : ∀ a ∈ l, isDigitChar a = true) :
    parseIntJS l = some ((digitsVal l : Nat) : Int) := by
  cases l with
  | nil => exact absurd rfl hne
  | cons c rest =>
    have hc := hd c (List.mem_cons_self c rest)
    obtain ⟨-, -, hm, hp⟩ := digit_ne_special hc
    have hdw : (c :: rest).dropWhile isJsWhitespace = c :: rest :=
      dropWhile_ws_of_digits (by simp) hd
    simp only [parseIntJS, hdw, if_neg hm, if_neg hp,
      digitsPrefix_of_digits (List.cons_ne_nil c rest) hd]
    rfl

theorem parseIntJS_natToStr (n : Nat) : parseIntJS (natToStr n) = some (n : Int) := by
  rw [parseIntJS_of_digits (natToStr_ne_nil n) natToStr_all_digits, natToStr_val]

theorem parseIntJS_intToStr (T : Int) : parseIntJS (intToStr T) = some T := by
  cases T with
  | ofNat n => exact parseIntJS_natToStr n
  | negSucc m =>
    have hne := natToStr_ne_nil (m + 1)
    have hd : ∀ a ∈ natToStr (m + 1), isDigitChar a = true := natToStr_all_digits
    have h1 : isJsWhitespace '-' = false := by decide
    simp only [intToStr, parseIntJS, List.dropWhile_cons, h1]
    simp [digitsPrefix_of_digits hne hd, natToStr_val, Int.negSucc_eq]

theorem intToStr_no_special (T : Int) : ',' ∉ intToStr T ∧ '=' ∉ intToStr T := by
  have key : ∀ (n : Nat) (c : Char), c ∈ natToStr n → c ≠ ',' ∧ c ≠ '=' := by
    intro n c hc
    have := digit_ne_special (natToStr_all_digits c hc)
    exact ⟨this.1, this.2.1⟩
  cases T with
  | ofNat n =>
    refine ⟨fun hm => ?_, fun hm => ?_⟩
    · exact (key n ',' hm).1 rfl
    · exact (key n '=' hm).2 rfl
  | negSucc m =>
    refine ⟨fun hm => ?_, fun hm => ?_⟩
    · rcases List.mem_cons.mp hm with h | h
      · exact absurd h.symm (by decide)
      · exact (key (m + 1) ',' h).1 rfl
    · rcases List.mem_cons.mp hm with h | h
      · exact absurd h.symm (by decide)
      · exact (key (m + 1) '=' h).2 rfl

/-- **C2.** For every integer status and optional response body,
`PayArkError.generate` classifies: 401 ↦ authentication_error,
403 ↦ permission_error, 400/422 ↦ invalid_request_error,
404 ↦ not_found_error, 429 ↦ rate_limit_error, 0 ↦ connection_error,
any other status ≥ 500 ↦ api_error, everything else ↦ unknown_error.
The embedded classifier is a pure total function on `Int`, so the mapping is
deterministic, side-effect-free, and total over all integer status inputs. -/
theorem generate_code_classification (status : Int) (data : Option PayArkErrorBody)
    (message : Option Str) :
    (PayArkError.generate status data message).code =
      (if status = 401 then .authentication_error
       else if status = 403 then .permission_error
       else if status = 400 ∨ status = 422 then .invalid_request_error
       else if status = 404 then .not_found_error
       else if status = 429 then .rate_limit_error
       else if status = 0 then .connection_error
       else if 500 ≤ status then PayArkErrorCode.api_error
       else .unknown_error) := by
  simp only [PayArkError.generate, PayArkAuthenticationError, PayArkPermissionError,
    PayArkInvalidRequestError, PayArkNotFoundError, PayArkRateLimitError,
    PayArkConnectionError, PayArkAPIError]
  split_ifs <;> rfl

/-! ### Lemmas about the verifier's primitives -/

theorem lor_eq_zero_iff (a b : Nat) : a ||| b = 0 ↔ a = 0 ∧ b = 0 := by
  constructor
  · intro h
    constructor
    · exact Nat.eq_of_testBit_eq (fun i => by
        have := congrArg (fun n => Nat.testBit n i) h
        simp [Nat.testBit_or] at this
        simp [this.1])
    · exact Nat.eq_of_testBit_eq (fun i => by
        have := congrArg (fun n => Nat.testBit n i) h
        simp [Nat.testBit_or] at this
        simp [this.2])
  · rintro ⟨rfl, rfl⟩
    rfl

theorem char_toNat_inj {c d : Char} (h : c.toNat = d.toNat) : c = d :=
  Char.ext (UInt32.ext h)

theorem foldl_lor_xor_eq_zero (l : List (Char × Char)) (acc : Nat) :
    (l.foldl (fun result p => result ||| (p.1.toNat ^^^ p.2.toNat)) acc = 0) ↔
      (acc = 0 ∧ ∀ p ∈ l, p.1 = p.2) := by
  induction l generalizing acc with
  | nil => simp
  | cons p rest ih =>
    simp only [List.foldl_cons, ih, List.mem_cons, lor_eq_zero_iff, Nat.xor_eq_zero]
    constructor
    · rintro ⟨⟨h0, hx⟩, hall⟩
      exact ⟨h0, fun q hq => hq.elim (fun he => he ▸ char_toNat_inj hx) (hall q)⟩
    · rintro ⟨h0, hall⟩
      exact ⟨⟨h0, congrArg Char.toNat (hall p (Or.inl rfl))⟩,
        fun q hq => hall q (Or.inr hq)⟩

theorem zip_self_eq {a b : Str} (hlen : a.length = b.length)
    (h : ∀ p ∈ a.zip b, p.1 = p.2) : a = b := by
  induction a generalizing b with
  | nil => cases b with
    | nil => rfl
    | cons d bs => simp at hlen
  | cons c as ih =>
    cases b with
    | nil => simp at hlen
    | cons d bs =>
      simp only [List.zip_cons_cons, List.mem_cons] at h
      have hcd : c = d := h (c, d) (Or.inl rfl)
      have : as = bs := ih (by simpa using hlen) (fun p hp => h p (Or.inr hp))
      rw [hcd, this]

/-- `constantTimeEqual` decides string equality: the length gate plus the
OR-accumulated XOR scan succeed exactly on identical strings. -/
theorem mem_zip_self_eq {a : Str} : ∀ p ∈ a.zip a, p.1 = p.2 := by
  induction a with
  | nil => intro p hp; simp at hp
  | cons c as ih =>
    intro p hp
    rcases List.mem_cons.mp (by simpa [List.zip_cons_cons] using hp) with h | h
    · rw [h]
    · exact ih p h

/-- `constantTimeEqual` decides string equality: the length gate plus the
OR-accumulated XOR scan succeed exactly on identical strings. -/
theorem constantTimeEqual_eq_true_iff (a b : Str) :
    constantTimeEqual a b = true ↔ a = b := by
  unfold constantTimeEqual
  by_cases hlen : a.length = b.length
  · rw [if_neg (by simp [hlen])]
    simp only [decide_eq_true_eq, foldl_lor_xor_eq_zero, true_and]
    constructor
    · intro hall
      exact zip_self_eq hlen hall
    · rintro rfl
      exact mem_zip_self_eq
  · rw [if_pos (by simp [hlen])]
    constructor
    · intro h
      exact absurd h (by simp)
    · intro he
      exact absurd (congrArg List.length he) hlen

theorem hexDigitChar_ne_comma_eq (n : Nat) :
    hexDigitChar n ≠ ',' ∧ hexDigitChar n ≠ '=' := by
  by_cases h : n < 16
  · unfold hexDigitChar
    interval_cases n <;> exact ⟨by decide, by decide⟩
  · push_neg at h
    have hd : hexAlphabet.getD n '0' = '0' :=
      List.getD_eq_default _ _ (by simp only [hexAlphabet]; simp; omega)
    unfold hexDigitChar
    rw [hd]
    exact ⟨by decide, by decide⟩

theorem sha256_ne_nil (msg : List Nat) : sha256 msg ≠ [] := by
  simp [sha256, wordBytes]

theorem hmacSha256_ne_nil (key msg : List Nat) : hmacSha256 key msg ≠ [] := by
  simp only [hmacSha256]
  exact sha256_ne_nil _

theorem hmacSHA256Hex_ne_nil (data secret : Str) : hmacSHA256Hex data secret ≠ [] := by
  unfold hmacSHA256Hex
  rcases h : hmacSha256 (utf8Encode secret) (utf8Encode data) with - | ⟨b, rest⟩
  · exact absurd h (hmacSha256_ne_nil _ _)
  · simp [h, byteToHex]

theorem hmacSHA256Hex_chars {data secret : Str} {c : Char}
    (hc : c ∈ hmacSHA256Hex data secret) : ∃ n, c = hexDigitChar n := by
  unfold hmacSHA256Hex at hc
  rcases List.mem_flatten.mp hc with ⟨l, hl, hcl⟩
  rcases List.mem_map.mp hl with ⟨b, -, rfl⟩
  simp only [byteToHex, List.mem_cons, List.not_mem_nil, or_false] at hcl
  rcases hcl with h | h
  · exact ⟨b / 16 % 16, h⟩
  · exact ⟨b % 16, h⟩

theorem hmacSHA256Hex_no_special (data secret : Str) :
    ',' ∉ hmacSHA256Hex data secret ∧ '=' ∉ hmacSHA256Hex data secret := by
  constructor <;> intro hm
  · rcases hmacSHA256Hex_chars hm with ⟨n, hn⟩
    exact (hexDigitChar_ne_comma_eq n).1 hn.symm
  · rcases hmacSHA256Hex_chars hm with ⟨n, hn⟩
    exact (hexDigitChar_ne_comma_eq n).2 hn.symm

theorem headerKeyValue_append {k v : Str} (hk : '=' ∉ k) (hv : '=' ∉ v) :
    headerKey (k ++ '=' :: v) = k ∧ headerValue (k ++ '=' :: v) = some v := by
  have h1 : splitOn '=' (k ++ '=' :: v) = k :: splitOn '=' v := splitOn_append hk
  have h2 : splitOn '=' v = [v] := splitOn_of_not_mem hv
  constructor
  · simp [headerKey, h1, h2]
  · simp [headerValue, h1, h2]

theorem foldl_timestamp_of_no_t {parts : List Str}
    (h : ∀ p ∈ parts, headerKey p ≠ ['t']) (st : ParseState) :
    (parts.foldl parseHeaderStep st).timestamp = st.timestamp := by
  induction parts generalizing st with
  | nil => rfl
  | cons p rest ih =>
    have hp := h p (List.mem_cons_self p rest)
    rw [List.foldl_cons, ih (fun q hq => h q (List.mem_cons_of_mem p hq))]
    simp only [parseHeaderStep, if_neg hp]
    split <;> rfl

theorem foldl_signature_of_no_v1 {parts : List Str}
    (h : ∀ p ∈ parts, headerKey p ≠ ['v', '1']) (st : ParseState) :
    (parts.foldl parseHeaderStep st).signature = st.signature := by
  induction parts generalizing st with
  | nil => rfl
  | cons p rest ih =>
    have hp := h p (List.mem_cons_self p rest)
    rw [List.foldl_cons, ih (fun q hq => h q (List.mem_cons_of_mem p hq))]
    simp only [parseHeaderStep, if_neg hp]
    split <;> rfl

theorem parseHeader_missing {header : Str}
    (h : (∀ p ∈ splitOn ',' header, headerKey p ≠ ['t']) ∨
         (∀ p ∈ splitOn ',' header, headerKey p ≠ ['v', '1'])) :
    parseHeader header = none := by
  by_cases h0 : header = []
  · simp [parseHeader, h0]
  · rcases h with h | h
    · rcases hm : (splitOn ',' header).foldl parseHeaderStep ⟨none, none⟩ with ⟨ts, sig⟩
      have hts : ts = none := by
        have h2 := foldl_timestamp_of_no_t h ⟨none, none⟩
        rw [hm] at h2
        exact h2
      subst hts
      simp only [parseHeader, if_neg h0, hm]
    · rcases hm : (splitOn ',' header).foldl parseHeaderStep ⟨none, none⟩ with ⟨ts, sig⟩
      have hsig : sig = none := by
        have h2 := foldl_signature_of_no_v1 h ⟨none, none⟩
        rw [hm] at h2
        exact h2
      subst hsig
      simp only [parseHeader, if_neg h0, hm]

theorem parseHeader_sigHeader (T : Int) {D : Str} (hne : D ≠ [])
    (hc : ',' ∉ D) (he : '=' ∉ D) :
    parseHeader (sigHeader T D) = some ⟨T, D⟩ := by
  obtain ⟨hTc, hTe⟩ := intToStr_no_special T
  have hshape : sigHeader T D =
      (['t', '='] ++ intToStr T) ++ ',' :: (['v', '1', '='] ++ D) := by
    simp [sigHeader]
  have hsplit : splitOn ',' (sigHeader T D) =
      [['t', '='] ++ intToStr T, ['v', '1', '='] ++ D] := by
    rw [hshape, splitOn_append (by
      simp only [List.mem_append, List.mem_cons, List.not_mem_nil]
      rintro ((h | h) | h) <;> first | exact absurd h.symm (by decide) | exact hTc h)]
    rw [splitOn_of_not_mem (by
      simp only [List.mem_append, List.mem_cons, List.not_mem_nil]
      rintro ((h | h | h) | h) <;>
        first | exact absurd h.symm (by decide) | exact hc h)]
  have hkv1 : headerKey (['t'] ++ '=' :: intToStr T) = ['t'] ∧
      headerValue (['t'] ++ '=' :: intToStr T) = some (intToStr T) :=
    headerKeyValue_append (by decide) hTe
  have hkv2 : headerKey (['v', '1'] ++ '=' :: D) = ['v', '1'] ∧
      headerValue (['v', '1'] ++ '=' :: D) = some D :=
    headerKeyValue_append (by decide) he
  have hhne : sigHeader T D ≠ [] := by
    rw [hshape]
    simp
  have hkey1 : headerKey (['t', '='] ++ intToStr T) = ['t'] := hkv1.1
  have hval1 : headerValue (['t', '='] ++ intToStr T) = some (intToStr T) := hkv1.2
  have hkey2 : headerKey (['v', '1', '='] ++ D) = ['v', '1'] := hkv2.1
  have hval2 : headerValue (['v', '1', '='] ++ D) = some D := hkv2.2
  have h1 : parseHeaderStep ⟨none, none⟩ (['t', '='] ++ intToStr T) =
      ⟨some (some T), none⟩ := by
    simp only [parseHeaderStep, hkey1, hval1, if_pos rfl]
    simp [parseIntJS_intToStr T]
  have h2 : parseHeaderStep ⟨some (some T), none⟩ (['v', '1', '='] ++ D) =
      ⟨some (some T), some D⟩ := by
    simp only [parseHeaderStep, hkey2, hval2]
    simp
  unfold parseHeader
  rw [if_neg hhne, hsplit]
  simp only [List.foldl_cons, List.foldl_nil, h1, h2]
  simp [hne]

/-- **C9.** The constant-time comparison used by signature verification
returns `true` exactly on equal strings; in particular unequal lengths (the
first gate) never compare equal, so verification accepts exactly the one
correct hex digest string. -/
theorem constantTimeEqual_correct (a b : Str) :
    constantTimeEqual a b = true ↔ a = b :=
  constantTimeEqual_eq_true_iff a b

theorem verifySignature_sigHeader {P S D : Str} {t T now : Int}
    (hne : D ≠ []) (hc : ',' ∉ D) (he : '=' ∉ D) (htol : ¬(0 < t ∧ t < |now - T|)) :
    verifySignature P (sigHeader T D) S t now =
      (if constantTimeEqual D (hmacSHA256Hex (intToStr T ++ '.' :: P) S) then .ok ()
       else .error (PayArkSignatureVerificationError msgSignatureMismatch)) := by
  unfold verifySignature
  rw [parseHeader_sigHeader T hne hc he]
  simp only [if_neg htol]

theorem constructEvent_ok_digest {J : Type} (jsonParse : Str → Option J)
    {P S : Str} {j : J} {t T now : Int} (hjson : jsonParse P = some j)
    (htol : ¬(0 < t ∧ t < |now - T|)) :
    constructEvent jsonParse P
        (sigHeader T (hmacSHA256Hex (intToStr T ++ '.' :: P) S)) S t now = .ok j := by
  obtain ⟨hc, he⟩ := hmacSHA256Hex_no_special (intToStr T ++ '.' :: P) S
  have hne := hmacSHA256Hex_ne_nil (intToStr T ++ '.' :: P) S
  unfold constructEvent
  rw [verifySignature_sigHeader hne hc he htol,
    if_pos ((constantTimeEqual_eq_true_iff _ _).mpr rfl)]
  simp [hjson]

/-- **C1 (amended).** For every payload `P`, secret `S`, tolerance `t > 0`
and timestamp `T` with `|now − T| ≤ t`, `constructEvent` on the header
`t=T,v1=D`, `D` the correct lowercase-hex HMAC-SHA-256 digest of `"T.P"`
keyed by `S`, succeeds and returns the JSON parse of `P` (the parse being
the presupposed `jsonParse P = some j`); a header with no `t` or no `v1`
component fails with the header-unparseable error before any other check
(for any secret, tolerance and clock); a parseable header whose timestamp
is outside tolerance fails with the tolerance error before any signature is
compared (for any signature value); any `D'` that differs from the correct
digest and stays free of the delimiter characters `','` and `'='` (a
delimiter in `D'` can re-shape the header, e.g. a leading `','` empties the
`v1` value and yields the header-parse error instead) fails with the
signature-mismatch error; and `t = 0` disables the timestamp check
entirely. -/
theorem constructEvent_verification_c1 {J : Type} (jsonParse : Str → Option J)
    (P S : Str) (j : J) (t T now : Int) (hjson : jsonParse P = some j)
    (ht : 0 < t) (hT : |now - T| ≤ t) :
    (constructEvent jsonParse P
        (sigHeader T (hmacSHA256Hex (intToStr T ++ '.' :: P) S)) S t now = .ok j)
    ∧ (∀ header : Str,
        ((∀ p ∈ splitOn ',' header, headerKey p ≠ ['t']) ∨
         (∀ p ∈ splitOn ',' header, headerKey p ≠ ['v', '1'])) →
        ∀ (S' : Str) (t' now' : Int),
          constructEvent jsonParse P header S' t' now' =
            .error (.verification (PayArkSignatureVerificationError msgUnableExtract)))
    ∧ (∀ (header : Str) (T' : Int) (sig : Str),
        parseHeader header = some ⟨T', sig⟩ → t < |now - T'| →
        constructEvent jsonParse P header S t now =
          .error (.verification (PayArkSignatureVerificationError msgTimestampTolerance)))
    ∧ (∀ D : Str, D ≠ [] → ',' ∉ D → '=' ∉ D →
        D ≠ hmacSHA256Hex (intToStr T ++ '.' :: P) S →
        constructEvent jsonParse P (sigHeader T D) S t now =
          .error (.verification (PayArkSignatureVerificationError msgSignatureMismatch)))
    ∧ (∀ T0 now0 : Int,
        constructEvent jsonParse P
          (sigHeader T0 (hmacSHA256Hex (intToStr T0 ++ '.' :: P) S)) S 0 now0 = .ok j) := by
  refine ⟨?_, ?_, ?_, ?_, ?_⟩
  · exact constructEvent_ok_digest jsonParse hjson
      (fun hcond => absurd hT (not_le.mpr hcond.2))
  · intro header hmiss S' t' now'
    unfold constructEvent verifySignature
    rw [parseHeader_missing hmiss]
  · intro header T' sig hparse htol
    unfold constructEvent verifySignature
    rw [hparse]
    simp only [if_pos (And.intro ht htol)]
  · intro D hne hc he hneq
    unfold constructEvent
    rw [verifySignature_sigHeader hne hc he (fun hcond => absurd hT (not_le.mpr hcond.2))]
    rw [if_neg (fun hb => hneq ((constantTimeEqual_eq_true_iff _ _).mp hb))]
  · intro T0 now0
    exact constructEvent_ok_digest jsonParse hjson (fun hcond => absurd hcond.1 (lt_irrefl 0))

set_option maxRecDepth 100000 in
/-- **C1 — counterexample to the unamended claim.**  Mutating the single
leading character of the correct digest to `','` (one-character difference)
re-shapes the header so the `v1` value parses empty: the failure is the
header-unparseable error, not the signature-mismatch error the claim
promises for every one-character mutation. -/
theorem constructEvent_mutation_counterexample :
    (',' :: (hmacSHA256Hex (intToStr 0 ++ '.' :: "p".toList) "whsec".toList).tail).length =
        (hmacSHA256Hex (intToStr 0 ++ '.' :: "p".toList) "whsec".toList).length ∧
    ',' :: (hmacSHA256Hex (intToStr 0 ++ '.' :: "p".toList) "whsec".toList).tail ≠
        hmacSHA256Hex (intToStr 0 ++ '.' :: "p".toList) "whsec".toList ∧
    constructEvent (fun s => some s) "p".toList
        (sigHeader 0 (',' :: (hmacSHA256Hex (intToStr 0 ++ '.' :: "p".toList) "whsec".toList).tail))
        "whsec".toList 300 0 =
      .error (.verification (PayArkSignatureVerificationError msgUnableExtract)) := by
  refine ⟨by decide, by decide, by rfl⟩

/-- Witness for `constructEvent_verification_c1` at `P = "p"`, `S = "s"`,
`T = 5`, `now = 7`, `t = 300`. -/
theorem constructEvent_verification_c1_witness :
    constructEvent (fun _ => some 7) "p".toList
        (sigHeader 5 (hmacSHA256Hex (intToStr 5 ++ '.' :: "p".toList) "s".toList))
        "s".toList 300 7 = .ok 7 :=
  (constructEvent_verification_c1 (fun _ => some 7) "p".toList "s".toList 7 300 5 7 rfl
    (by decide) (by decide)).1

/-- **C6 (amended).** Every failure raised by webhook signature verification
(header unparseable, timestamp outside tolerance, signature mismatch) is a
`PayArkSignatureVerificationError` — a dedicated subclass, distinct by its
`name` — but it *reuses* the HTTP taxonomy rather than a separate
`signature_verification_error` kind: its `code` is `invalid_request_error`
and it carries `statusCode` 400. -/
theorem verifySignature_error_shape (rawBody signatureHeader secret : Str)
    (tol now : Int) (e : PayArkErr)
    (h : verifySignature rawBody signatureHeader secret tol now = .error e) :
    e.name = "PayArkSignatureVerificationError".toList ∧ e.statusCode = 400 ∧
      e.code = .invalid_request_error := by
  unfold verifySignature at h
  split at h
  · injection h with h
    subst h
    exact ⟨rfl, rfl, rfl⟩
  · split at h
    · injection h with h
      subst h
      exact ⟨rfl, rfl, rfl⟩
    · dsimp only at h
      split at h
      · cases h
      · injection h with h
        subst h
        exact ⟨rfl, rfl, rfl⟩

/-- **C6 — counterexample to the unamended claim.**  The error raised at a
concrete failing verification carries `code = invalid_request_error` — a
member of the HTTP taxonomy — and `statusCode` 400, refuting "distinct from
the HTTP error taxonomy and carries no status-code semantics" (the embedded
`PayArkErrorCode` union, copied from the source, has no
`signature_verification_error` member at all). -/
theorem verifySignature_error_taxonomy_counterexample :
    verifySignature "x".toList "bad".toList "s".toList 300 0 =
      .error (PayArkSignatureVerificationError msgUnableExtract) ∧
    (PayArkSignatureVerificationError msgUnableExtract).code =
      PayArkErrorCode.invalid_request_error ∧
    (PayArkSignatureVerificationError msgUnableExtract).statusCode = 400 ∧
    (PayArkSignatureVerificationError msgUnableExtract).statusCode ≠ 0 := by
  exact ⟨rfl, rfl, rfl, by decide⟩

/-- Witness for `verifySignature_error_shape` at the concrete malformed
header `"bad"`. -/
theorem verifySignature_error_shape_witness :
    (PayArkSignatureVerificationError msgUnableExtract).name =
        "PayArkSignatureVerificationError".toList ∧
    (PayArkSignatureVerificationError msgUnableExtract).statusCode = 400 ∧
    (PayArkSignatureVerificationError msgUnableExtract).code =
      PayArkErrorCode.invalid_request_error :=
  verifySignature_error_shape "x".toList "bad".toList "s".toList 300 0 _ rfl

theorem requestLoop_zero {β : Type} (outcomes : Nat → FetchResult β) (jitter : Nat → ℚ)
    (dateParse : Str → Option Int) (nowMs : Int) (maxRetries requestTimeout : Nat)
    (headers : StrPairs) (emptyVal : β) (attempt : Nat) (lastError : Option PayArkErr)
    (sleeps : List ℚ) (sent : List StrPairs) :
    requestLoop outcomes jitter dateParse nowMs maxRetries requestTimeout headers emptyVal
        0 attempt lastError sleeps sent =
      { result := .error (lastError.getD fallbackRetriesError), attempts := attempt,
        sleeps := sleeps, sentHeaders := sent } := rfl

theorem requestLoop_succ {β : Type} (outcomes : Nat → FetchResult β) (jitter : Nat → ℚ)
    (dateParse : Str → Option Int) (nowMs : Int) (maxRetries requestTimeout : Nat)
    (headers : StrPairs) (emptyVal : β) (fuel attempt : Nat) (lastError : Option PayArkErr)
    (sleeps : List ℚ) (sent : List StrPairs) :
    requestLoop outcomes jitter dateParse nowMs maxRetries requestTimeout headers emptyVal
        (fuel + 1) attempt lastError sleeps sent =
      (match attemptStep dateParse nowMs requestTimeout emptyVal (outcomes attempt) with
       | .done r =>
         { result := r, attempts := attempt + 1, sleeps := sleeps,
           sentHeaders := sent ++ [headers] }
       | .retry e ra =>
         if attempt < maxRetries then
           requestLoop outcomes jitter dateParse nowMs maxRetries requestTimeout headers
             emptyVal fuel (attempt + 1) (some e)
             (sleeps ++ [if 0 < ra then ra
                         else ((500 * 2 ^ attempt : Nat) : ℚ) + jitter attempt])
             (sent ++ [headers])
         else
           requestLoop outcomes jitter dateParse nowMs maxRetries requestTimeout headers
             emptyVal fuel (attempt + 1) (some e) sleeps (sent ++ [headers])) := rfl

theorem requestLoop_spec {β : Type} (outcomes : Nat → FetchResult β) (jitter : Nat → ℚ)
    (dateParse : Str → Option Int) (nowMs : Int) (maxRetries requestTimeout : Nat)
    (headers : StrPairs) (emptyVal : β) :
    ∀ (fuel attempt : Nat) (lastError : Option PayArkErr) (sleeps : List ℚ)
      (sent : List StrPairs), attempt + fuel = maxRetries + 1 →
      (fun t : Trace β =>
        attempt ≤ t.attempts ∧ (1 ≤ fuel → attempt + 1 ≤ t.attempts) ∧
        t.attempts ≤ attempt + fuel ∧
        t.sentHeaders = sent ++ List.replicate (t.attempts - attempt) headers ∧
        ∃ tail, t.sleeps = sleeps ++ tail ∧
          tail.length = t.attempts - attempt - 1 ∧
          ∀ k, k < tail.length → tail.get? k =
            some (attemptDelay outcomes jitter dateParse nowMs requestTimeout emptyVal
              (attempt + k)))
      (requestLoop outcomes jitter dateParse nowMs maxRetries requestTimeout headers
        emptyVal fuel attempt lastError sleeps sent) := by
  intro fuel
  induction fuel with
  | zero =>
    intro attempt lastError sleeps sent _hinv
    refine ⟨?_, ?_, ?_, ?_, [], ?_, ?_, ?_⟩ <;> simp [requestLoop_zero]
  | succ fuel ih =>
    intro attempt lastError sleeps sent hinv
    rcases hstep : attemptStep dateParse nowMs requestTimeout emptyVal (outcomes attempt)
      with r | ⟨e, ra⟩
    · refine ⟨?_, ?_, ?_, ?_, [], ?_, ?_, ?_⟩ <;>
        simp [requestLoop_succ, hstep, Nat.add_sub_cancel_left]
    · simp only [requestLoop_succ, hstep]
      by_cases hlt : attempt < maxRetries
      · rw [if_pos hlt]
        have hinv2 : (attempt + 1) + fuel = maxRetries + 1 := by omega
        have hfuel : 1 ≤ fuel := by omega
        obtain ⟨h1, h2, h3, h4, tail, ht1, ht2, ht3⟩ :=
          ih (attempt + 1) (some e)
            (sleeps ++ [if 0 < ra then ra
                        else ((500 * 2 ^ attempt : Nat) : ℚ) + jitter attempt])
            (sent ++ [headers]) hinv2
        have hge2 := h2 hfuel
        refine ⟨by omega, fun _ => by omega, by omega, ?_,
          (if 0 < ra then ra else ((500 * 2 ^ attempt : Nat) : ℚ) + jitter attempt) :: tail,
          ?_, ?_, ?_⟩
        · rw [h4]
          rw [show (requestLoop outcomes jitter dateParse nowMs maxRetries requestTimeout
              headers emptyVal fuel (attempt + 1) (some e)
              (sleeps ++ [if 0 < ra then ra
                          else ((500 * 2 ^ attempt : Nat) : ℚ) + jitter attempt])
              (sent ++ [headers])).attempts - attempt =
              ((requestLoop outcomes jitter dateParse nowMs maxRetries requestTimeout
              headers emptyVal fuel (attempt + 1) (some e)
              (sleeps ++ [if 0 < ra then ra
                          else ((500 * 2 ^ attempt : Nat) : ℚ) + jitter attempt])
              (sent ++ [headers])).attempts - (attempt + 1)) + 1 from by omega]
          rw [List.replicate_succ]
          simp
        · rw [ht1]
          simp
        · simp only [List.length_cons, ht2]
          omega
        · intro k hk
          cases k with
          | zero =>
            simp [attemptDelay, hstep]
          | succ k =>
            simp only [List.get?_cons_succ]
            rw [show attempt + (k + 1) = attempt + 1 + k from by omega]
            exact ht3 k (by simpa using hk)
      · rw [if_neg hlt]
        have hfz : fuel = 0 := by omega
        subst hfz
        refine ⟨?_, ?_, ?_, ?_, [], ?_, ?_, ?_⟩ <;>
          simp [requestLoop_zero, Nat.add_sub_cancel_left]

theorem generate_statusCode (s : Int) (d : Option PayArkErrorBody) (m : Option Str) :
    (PayArkError.generate s d m).statusCode = s := by
  simp only [PayArkError.generate, PayArkAuthenticationError, PayArkPermissionError,
    PayArkInvalidRequestError, PayArkNotFoundError, PayArkRateLimitError,
    PayArkConnectionError, PayArkAPIError]
  split_ifs <;> simp_all

theorem attemptStep_retryable {β : Type} (dateParse : Str → Option Int) (nowMs : Int)
    (requestTimeout : Nat) (emptyVal : β) {s : Int} {okb : Except Str β}
    {eb : Option PayArkErrorBody} {ra : Option Str}
    (hok : isOkStatus s = false) (hr : s ∈ RETRYABLE_STATUS_CODES) :
    attemptStep dateParse nowMs requestTimeout emptyVal
        (.response s okb eb ra : FetchResult β) =
      .retry (PayArkError.generate s eb (eb.bind (fun b => b.error)))
        (if s = 429 then retryAfterOf dateParse nowMs ra else 0) := by
  simp [attemptStep, hok, hr]

theorem attemptStep_nonretryable {β : Type} (dateParse : Str → Option Int) (nowMs : Int)
    (requestTimeout : Nat) (emptyVal : β) {s : Int} {okb : Except Str β}
    {eb : Option PayArkErrorBody} {ra : Option Str}
    (hok : isOkStatus s = false) (hr : s ∉ RETRYABLE_STATUS_CODES) (hpos : 0 < s) :
    attemptStep dateParse nowMs requestTimeout emptyVal
        (.response s okb eb ra : FetchResult β) =
      .done (.error (PayArkError.generate s eb (eb.bind (fun b => b.error)))) := by
  simp only [attemptStep, hok, Bool.false_eq_true, if_false]
  rw [if_neg (by simpa using hr), if_pos]
  rw [generate_statusCode]
  exact ⟨hpos, hr⟩

theorem attemptStep_ok {β : Type} (dateParse : Str → Option Int) (nowMs : Int)
    (requestTimeout : Nat) (emptyVal : β) {s : Int} {okb : Except Str β}
    {eb : Option PayArkErrorBody} {ra : Option Str} (hok : isOkStatus s = true) :
    attemptStep dateParse nowMs requestTimeout emptyVal
        (.response s okb eb ra : FetchResult β) =
      (if s = 204 then .done (.ok emptyVal)
       else match okb with
         | .ok v => .done (.ok v)
         | .error m => .retry (PayArkError.generate 0 none (some (networkMsg m))) 0) := by
  simp [attemptStep, hok]

theorem requestLoop_all_retry {β : Type} (outcomes : Nat → FetchResult β) (jitter : Nat → ℚ)
    (dateParse : Str → Option Int) (nowMs : Int) (maxRetries requestTimeout : Nat)
    (headers : StrPairs) (emptyVal : β) (errOf : Nat → PayArkErr)
    (hall : ∀ i, ∃ ra, attemptStep dateParse nowMs requestTimeout emptyVal (outcomes i) =
      .retry (errOf i) ra) :
    ∀ (fuel attempt : Nat) (lastError : Option PayArkErr) (sleeps : List ℚ)
      (sent : List StrPairs),
      (requestLoop outcomes jitter dateParse nowMs maxRetries requestTimeout headers
          emptyVal (fuel + 1) attempt lastError sleeps sent).attempts =
        attempt + fuel + 1 ∧
      (requestLoop outcomes jitter dateParse nowMs maxRetries requestTimeout headers
          emptyVal (fuel + 1) attempt lastError sleeps sent).result =
        .error (errOf (attempt + fuel)) := by
  intro fuel
  induction fuel with
  | zero =>
    intro attempt lastError sleeps sent
    obtain ⟨ra, hstep⟩ := hall attempt
    simp only [requestLoop_succ, hstep]
    by_cases hlt : attempt < maxRetries
    · rw [if_pos hlt]
      simp [requestLoop_zero]
    · rw [if_neg hlt]
      simp [requestLoop_zero]
  | succ fuel ih =>
    intro attempt lastError sleeps sent
    obtain ⟨ra, hstep⟩ := hall attempt
    rw [requestLoop_succ, hstep]
    dsimp only
    by_cases hlt : attempt < maxRetries
    · rw [if_pos hlt]
      obtain ⟨ha, hr⟩ := ih (attempt + 1) (some (errOf attempt))
        (sleeps ++ [if 0 < ra then ra else ((500 * 2 ^ attempt : Nat) : ℚ) + jitter attempt])
        (sent ++ [headers])
      rw [ha, hr, show attempt + 1 + fuel = attempt + (fuel + 1) from by omega]
      exact ⟨by omega, rfl⟩
    · rw [if_neg hlt]
      obtain ⟨ha, hr⟩ := ih (attempt + 1) (some (errOf attempt)) sleeps (sent ++ [headers])
      rw [ha, hr, show attempt + 1 + fuel = attempt + (fuel + 1) from by omega]
      exact ⟨by omega, rfl⟩

theorem lookupPair_setPair (ps : StrPairs) (k v q : Str) :
    lookupPair (setPair ps k v) q = if q = k then some v else lookupPair ps q := by
  induction ps with
  | nil =>
    by_cases h : q = k
    · simp [setPair, lookupPair, h]
    · simp only [setPair, lookupPair, if_neg (fun he : k = q => h he.symm), if_neg h]
  | cons p t ih =>
    by_cases h1 : p.1 = k
    · simp only [setPair, if_pos h1]
      by_cases h2 : q = k
      · simp [lookupPair, h2]
      · simp only [lookupPair, if_neg (fun he : k = q => h2 he.symm), if_neg h2]
        rw [if_neg (fun he : p.1 = q => h2 (he.symm.trans h1))]
    · simp only [setPair, if_neg h1]
      by_cases h2 : p.1 = q
      · simp only [lookupPair, if_pos h2, if_neg (fun he : q = k => h1 (h2.trans he))]
      · simp only [lookupPair, if_neg h2, ih]

theorem lookupPair_fold_of_not_mem {ex : StrPairs} {q : Str}
    (hex : ∀ p ∈ ex, p.1 ≠ q) (acc : StrPairs) :
    lookupPair (ex.foldl (fun a kv => setPair a kv.1 kv.2) acc) q = lookupPair acc q := by
  induction ex generalizing acc with
  | nil => rfl
  | cons kv t ih =>
    rw [List.foldl_cons, ih (fun p hp => hex p (List.mem_cons_of_mem kv hp))]
    rw [lookupPair_setPair, if_neg (fun he => hex kv (List.mem_cons_self kv t) he.symm)]

theorem lookupPair_buildHeaders_base (client : HttpClientData) (q : Str)
    (h1 : q ≠ "Authorization".toList) (h2 : q ≠ "Content-Type".toList)
    (h3 : q ≠ "Accept".toList) (h4 : q ≠ "User-Agent".toList) :
    lookupPair [("Authorization".toList, "Bearer ".toList ++ client.apiKey),
      ("Content-Type".toList, "application/json".toList),
      ("Accept".toList, "application/json".toList),
      ("User-Agent".toList, "payark-sdk-node/".toList ++ SDK_VERSION)] q = none := by
  simp only [lookupPair]
  rw [if_neg (fun he => h1 he.symm), if_neg (fun he => h2 he.symm),
    if_neg (fun he => h3 he.symm), if_neg (fun he => h4 he.symm)]

theorem buildHeaders_lookup_idem (client : HttpClientData) (extra : Option StrPairs)
    (k : Str)
    (hex : ∀ ps, extra = some ps → ∀ p ∈ ps, p.1 ≠ "Idempotency-Key".toList)
    (hk : k ≠ []) :
    lookupPair (buildHeaders client extra (some k)) "Idempotency-Key".toList = some k := by
  have hcore : lookupPair (if k ≠ [] then
      setPair [("Authorization".toList, "Bearer ".toList ++ client.apiKey),
        ("Content-Type".toList, "application/json".toList),
        ("Accept".toList, "application/json".toList),
        ("User-Agent".toList, "payark-sdk-node/".toList ++ SDK_VERSION)]
        "Idempotency-Key".toList k
      else [("Authorization".toList, "Bearer ".toList ++ client.apiKey),
        ("Content-Type".toList, "application/json".toList),
        ("Accept".toList, "application/json".toList),
        ("User-Agent".toList, "payark-sdk-node/".toList ++ SDK_VERSION)])
      "Idempotency-Key".toList = some k := by
    simp only [ne_eq, hk, not_false_eq_true, if_true]
    rw [lookupPair_setPair, if_pos rfl]
  have hsand : ∀ x : StrPairs, lookupPair x "Idempotency-Key".toList = some k →
      lookupPair (if client.sandbox then
        setPair x "x-sandbox-mode".toList "true".toList else x)
        "Idempotency-Key".toList = some k := by
    intro x hx
    by_cases hs : client.sandbox <;> simp only [hs, if_true, if_false, Bool.false_eq_true]
    · rw [lookupPair_setPair, if_neg (by decide)]
      exact hx
    · exact hx
  cases extra with
  | none => exact hsand _ hcore
  | some ps =>
    have h := lookupPair_fold_of_not_mem (hex ps rfl)
      (if client.sandbox then
        setPair (if k ≠ [] then
          setPair [("Authorization".toList, "Bearer ".toList ++ client.apiKey),
            ("Content-Type".toList, "application/json".toList),
            ("Accept".toList, "application/json".toList),
            ("User-Agent".toList, "payark-sdk-node/".toList ++ SDK_VERSION)]
            "Idempotency-Key".toList k
          else [("Authorization".toList, "Bearer ".toList ++ client.apiKey),
            ("Content-Type".toList, "application/json".toList),
            ("Accept".toList, "application/json".toList),
            ("User-Agent".toList, "payark-sdk-node/".toList ++ SDK_VERSION)])
          "x-sandbox-mode".toList "true".toList
        else (if k ≠ [] then
          setPair [("Authorization".toList, "Bearer ".toList ++ client.apiKey),
            ("Content-Type".toList, "application/json".toList),
            ("Accept".toList, "application/json".toList),
            ("User-Agent".toList, "payark-sdk-node/".toList ++ SDK_VERSION)]
            "Idempotency-Key".toList k
          else [("Authorization".toList, "Bearer ".toList ++ client.apiKey),
            ("Content-Type".toList, "application/json".toList),
            ("Accept".toList, "application/json".toList),
            ("User-Agent".toList, "payark-sdk-node/".toList ++ SDK_VERSION)]))
    exact h.trans (hsand _ hcore)

theorem buildHeaders_lookup_idem_none (client : HttpClientData) (extra : Option StrPairs)
    (hex : ∀ ps, extra = some ps → ∀ p ∈ ps, p.1 ≠ "Idempotency-Key".toList) :
    lookupPair (buildHeaders client extra none) "Idempotency-Key".toList = none := by
  have hcore := lookupPair_buildHeaders_base client "Idempotency-Key".toList
    (by decide) (by decide) (by decide) (by decide)
  have hsand : ∀ x : StrPairs, lookupPair x "Idempotency-Key".toList = none →
      lookupPair (if client.sandbox then
        setPair x "x-sandbox-mode".toList "true".toList else x)
        "Idempotency-Key".toList = none := by
    intro x hx
    by_cases hs : client.sandbox <;> simp only [hs, if_true, if_false, Bool.false_eq_true]
    · rw [lookupPair_setPair, if_neg (by decide)]
      exact hx
    · exact hx
  cases extra with
  | none => exact hsand _ hcore
  | some ps =>
    have h := lookupPair_fold_of_not_mem (hex ps rfl)
      (if client.sandbox then
        setPair [("Authorization".toList, "Bearer ".toList ++ client.apiKey),
          ("Content-Type".toList, "application/json".toList),
          ("Accept".toList, "application/json".toList),
          ("User-Agent".toList, "payark-sdk-node/".toList ++ SDK_VERSION)]
          "x-sandbox-mode".toList "true".toList
        else [("Authorization".toList, "Bearer ".toList ++ client.apiKey),
          ("Content-Type".toList, "application/json".toList),
          ("Accept".toList, "application/json".toList),
          ("User-Agent".toList, "payark-sdk-node/".toList ++ SDK_VERSION)])
    exact h.trans (hsand _ hcore)

theorem buildHeaders_lookup_auth (client : HttpClientData) (extra : Option StrPairs)
    (idk : Option Str)
    (hex : ∀ ps, extra = some ps → ∀ p ∈ ps, p.1 ≠ "Authorization".toList) :
    lookupPair (buildHeaders client extra idk) "Authorization".toList =
      some ("Bearer ".toList ++ client.apiKey) := by
  have hbase : lookupPair [("Authorization".toList, "Bearer ".toList ++ client.apiKey),
      ("Content-Type".toList, "application/json".toList),
      ("Accept".toList, "application/json".toList),
      ("User-Agent".toList, "payark-sdk-node/".toList ++ SDK_VERSION)]
      "Authorization".toList = some ("Bearer ".toList ++ client.apiKey) := by
    simp [lookupPair]
  have hcore : lookupPair (match idk with
      | some kk => if kk ≠ [] then
          setPair [("Authorization".toList, "Bearer ".toList ++ client.apiKey),
            ("Content-Type".toList, "application/json".toList),
            ("Accept".toList, "application/json".toList),
            ("User-Agent".toList, "payark-sdk-node/".toList ++ SDK_VERSION)]
            "Idempotency-Key".toList kk
        else [("Authorization".toList, "Bearer ".toList ++ client.apiKey),
          ("Content-Type".toList, "application/json".toList),
          ("Accept".toList, "application/json".toList),
          ("User-Agent".toList, "payark-sdk-node/".toList ++ SDK_VERSION)]
      | none => [("Authorization".toList, "Bearer ".toList ++ client.apiKey),
          ("Content-Type".toList, "application/json".toList),
          ("Accept".toList, "application/json".toList),
          ("User-Agent".toList, "payark-sdk-node/".toList ++ SDK_VERSION)])
      "Authorization".toList = some ("Bearer ".toList ++ client.apiKey) := by
    cases idk with
    | none => exact hbase
    | some kk =>
      by_cases hk : kk = []
      · simp only [hk, ne_eq, not_true_eq_false, if_false]
        exact hbase
      · simp only [ne_eq, hk, not_false_eq_true, if_true]
        rw [lookupPair_setPair, if_neg (by decide)]
        exact hbase
  have hsand : ∀ x : StrPairs,
      lookupPair x "Authorization".toList = some ("Bearer ".toList ++ client.apiKey) →
      lookupPair (if client.sandbox then
        setPair x "x-sandbox-mode".toList "true".toList else x)
        "Authorization".toList = some ("Bearer ".toList ++ client.apiKey) := by
    intro x hx
    by_cases hs : client.sandbox <;> simp only [hs, if_true, if_false, Bool.false_eq_true]
    · rw [lookupPair_setPair, if_neg (by decide)]
      exact hx
    · exact hx
  cases extra with
  | none => exact hsand _ hcore
  | some ps =>
    have h := lookupPair_fold_of_not_mem (hex ps rfl)
    exact (h _).trans (hsand _ hcore)

theorem HttpClient.request_def {β : Type} (client : HttpClientData) (method : HttpMethod)
    (opts : RequestOptions) (genKey : Str) (outcomes : Nat → FetchResult β)
    (jitter : Nat → ℚ) (dateParse : Str → Option Int) (nowMs : Int) (emptyVal : β) :
    HttpClient.request client method opts genKey outcomes jitter dateParse nowMs emptyVal =
      requestLoop outcomes jitter dateParse nowMs client.maxRetries
        (opts.timeout.getD client.timeout)
        (buildHeaders client opts.headers
          (if method ∈ MUTATING_METHODS then some genKey else none))
        emptyVal (client.maxRetries + 1) 0 none [] [] := rfl

theorem request_sentHeaders {β : Type} (client : HttpClientData) (method : HttpMethod)
    (opts : RequestOptions) (genKey : Str) (outcomes : Nat → FetchResult β)
    (jitter : Nat → ℚ) (dateParse : Str → Option Int) (nowMs : Int) (emptyVal : β) :
    (HttpClient.request client method opts genKey outcomes jitter dateParse nowMs
        emptyVal).sentHeaders =
      List.replicate
        (HttpClient.request client method opts genKey outcomes jitter dateParse nowMs
          emptyVal).attempts
        (buildHeaders client opts.headers
          (if method ∈ MUTATING_METHODS then some genKey else none)) := by
  obtain ⟨-, -, -, h4, -⟩ := requestLoop_spec outcomes jitter dateParse nowMs
    client.maxRetries (opts.timeout.getD client.timeout)
    (buildHeaders client opts.headers
      (if method ∈ MUTATING_METHODS then some genKey else none))
    emptyVal (client.maxRetries + 1) 0 none [] [] (by omega)
  rw [HttpClient.request_def]
  simpa using h4

/-- **C4 (amended).** For logical requests whose caller-supplied header
overrides do not themselves set `Idempotency-Key` (overrides are
`Object.assign`ed last and would win): a mutating request (POST/PUT/PATCH)
carries the single generated key `genKey` — drawn once before the first
attempt — identically in the headers of *every* physical attempt; two
independent mutating logical requests whose drawn keys differ carry
different values; and GET/DELETE requests never carry the header. -/
theorem request_idempotency_c4 {β : Type} (client : HttpClientData) (method : HttpMethod)
    (opts : RequestOptions) (genKey : Str) (outcomes : Nat → FetchResult β)
    (jitter : Nat → ℚ) (dateParse : Str → Option Int) (nowMs : Int) (emptyVal : β)
    (hex : ∀ ps, opts.headers = some ps → ∀ p ∈ ps, p.1 ≠ "Idempotency-Key".toList) :
    (method ∈ MUTATING_METHODS → genKey ≠ [] →
      ∀ h ∈ (HttpClient.request client method opts genKey outcomes jitter dateParse nowMs
          emptyVal).sentHeaders,
        lookupPair h "Idempotency-Key".toList = some genKey)
    ∧ ((method = .GET ∨ method = .DELETE) →
      ∀ h ∈ (HttpClient.request client method opts genKey outcomes jitter dateParse nowMs
          emptyVal).sentHeaders,
        lookupPair h "Idempotency-Key".toList = none)
    ∧ (∀ {β2 : Type} (client2 : HttpClientData) (method2 : HttpMethod)
        (opts2 : RequestOptions) (genKey2 : Str) (outcomes2 : Nat → FetchResult β2)
        (jitter2 : Nat → ℚ) (dateParse2 : Str → Option Int) (nowMs2 : Int) (emptyVal2 : β2),
        (∀ ps, opts2.headers = some ps → ∀ p ∈ ps, p.1 ≠ "Idempotency-Key".toList) →
        method ∈ MUTATING_METHODS → method2 ∈ MUTATING_METHODS →
        genKey ≠ [] → genKey2 ≠ [] → genKey ≠ genKey2 →
        ∀ h1 ∈ (HttpClient.request client method opts genKey outcomes jitter dateParse nowMs
            emptyVal).sentHeaders,
        ∀ h2 ∈ (HttpClient.request client2 method2 opts2 genKey2 outcomes2 jitter2 dateParse2
            nowMs2 emptyVal2).sentHeaders,
          lookupPair h1 "Idempotency-Key".toList ≠
            lookupPair h2 "Idempotency-Key".toList) := by
  have hmem : ∀ h ∈ (HttpClient.request client method opts genKey outcomes jitter dateParse
      nowMs emptyVal).sentHeaders,
      h = buildHeaders client opts.headers
        (if method ∈ MUTATING_METHODS then some genKey else none) := by
    intro h hm
    rw [request_sentHeaders] at hm
    exact List.eq_of_mem_replicate hm
  refine ⟨?_, ?_, ?_⟩
  · intro hmut hk h hm
    rw [hmem h hm, if_pos hmut]
    exact buildHeaders_lookup_idem client opts.headers genKey hex hk
  · intro hgd h hm
    have hnm : method ∉ MUTATING_METHODS := by
      rcases hgd with rfl | rfl <;> decide
    rw [hmem h hm, if_neg hnm]
    exact buildHeaders_lookup_idem_none client opts.headers hex
  · intro β2 client2 method2 opts2 genKey2 outcomes2 jitter2 dateParse2 nowMs2 emptyVal2
      hex2 hmut hmut2 hk hk2 hne h1 hm1 h2 hm2
    have e1 : lookupPair h1 "Idempotency-Key".toList = some genKey := by
      rw [hmem h1 hm1, if_pos hmut]
      exact buildHeaders_lookup_idem client opts.headers genKey hex hk
    have hmem2 : h2 = buildHeaders client2 opts2.headers
        (if method2 ∈ MUTATING_METHODS then some genKey2 else none) := by
      rw [request_sentHeaders] at hm2
      exact List.eq_of_mem_replicate hm2
    have e2 : lookupPair h2 "Idempotency-Key".toList = some genKey2 := by
      rw [hmem2, if_pos hmut2]
      exact buildHeaders_lookup_idem client2 opts2.headers genKey2 hex2 hk2
    rw [e1, e2]
    exact fun he => hne (Option.some.inj he)

/-- **C4 — counterexample to the unamended claim.**  Caller-supplied header
overrides are `Object.assign`ed after the defaults, so a GET request whose
options carry `Idempotency-Key: boom` *does* send an `Idempotency-Key`
header, although GET is not a mutating method. -/
theorem request_idem_override_counterexample :
    HttpMethod.GET ∉ MUTATING_METHODS ∧
    lookupPair
      ((HttpClient.request
        { apiKey := "k".toList, baseUrl := defaultBaseUrl, timeout := 30000,
          maxRetries := 0, sandbox := false }
        .GET ⟨[], some [("Idempotency-Key".toList, "boom".toList)], none⟩ "u".toList
        (fun _ => FetchResult.response 200 (.ok (0 : Nat)) none none)
        (fun _ => 0) (fun _ => none) 0 0).sentHeaders.headI)
      "Idempotency-Key".toList = some "boom".toList := by
  exact ⟨by decide, by decide⟩

/-- Witness for `request_idempotency_c4`: a concrete POST with no overrides
carries its generated key. -/
theorem request_idempotency_c4_witness :
    lookupPair
      ((HttpClient.request
        { apiKey := "k".toList, baseUrl := defaultBaseUrl, timeout := 30000,
          maxRetries := 0, sandbox := false }
        .POST ⟨[], none, none⟩ "u1".toList
        (fun _ => FetchResult.response 200 (.ok (0 : Nat)) none none)
        (fun _ => 0) (fun _ => none) 0 0).sentHeaders.headI)
      "Idempotency-Key".toList = some "u1".toList :=
  (request_idempotency_c4
    { apiKey := "k".toList, baseUrl := defaultBaseUrl, timeout := 30000,
      maxRetries := 0, sandbox := false }
    .POST ⟨[], none, none⟩ "u1".toList
    (fun _ => FetchResult.response 200 (.ok (0 : Nat)) none none)
    (fun _ => 0) (fun _ => none) 0 0
    (fun _ hps => Option.noConfusion hps)).1 (by decide) (by decide) _ (by decide)

/-- **C3 (amended).** With `maxRetries = N`: a logical request whose every
physical attempt yields a non-2xx status in the retryable set
`{429, 500, 502, 503, 504}` performs exactly `N + 1` physical attempts and
raises the Error Value recorded from the last attempt; a first attempt with
a *positive* non-2xx status outside that set performs exactly 1 attempt and
raises its Error Value immediately (a status-0 response is instead treated
like a connection fault and retried — see the counterexample to the
unamended claim); and a 2xx first attempt ends the loop at once, a 204 with
the empty object and otherwise with the parsed body. -/
theorem request_attempt_counts_c3 {β : Type} (client : HttpClientData) (method : HttpMethod)
    (opts : RequestOptions) (genKey : Str) (outcomes : Nat → FetchResult β)
    (jitter : Nat → ℚ) (dateParse : Str → Option Int) (nowMs : Int) (emptyVal : β) :
    ((∀ i, ∃ s okb eb ra, outcomes i = FetchResult.response s okb eb ra ∧
        isOkStatus s = false ∧ s ∈ RETRYABLE_STATUS_CODES) →
      (HttpClient.request client method opts genKey outcomes jitter dateParse nowMs
          emptyVal).attempts = client.maxRetries + 1 ∧
      (HttpClient.request client method opts genKey outcomes jitter dateParse nowMs
          emptyVal).result = .error (respErrOf (outcomes client.maxRetries)))
    ∧ (∀ s okb eb ra, outcomes 0 = FetchResult.response s okb eb ra →
        isOkStatus s = false → s ∉ RETRYABLE_STATUS_CODES → 0 < s →
        (HttpClient.request client method opts genKey outcomes jitter dateParse nowMs
            emptyVal).attempts = 1 ∧
        (HttpClient.request client method opts genKey outcomes jitter dateParse nowMs
            emptyVal).result =
          .error (PayArkError.generate s eb (eb.bind (fun b => b.error))))
    ∧ (∀ okb eb ra, outcomes 0 = FetchResult.response 204 okb eb ra →
        (HttpClient.request client method opts genKey outcomes jitter dateParse nowMs
            emptyVal).attempts = 1 ∧
        (HttpClient.request client method opts genKey outcomes jitter dateParse nowMs
            emptyVal).result = .ok emptyVal)
    ∧ (∀ s v eb ra, outcomes 0 = FetchResult.response s (.ok v) eb ra →
        isOkStatus s = true → s ≠ 204 →
        (HttpClient.request client method opts genKey outcomes jitter dateParse nowMs
            emptyVal).attempts = 1 ∧
        (HttpClient.request client method opts genKey outcomes jitter dateParse nowMs
            emptyVal).result = .ok v) := by
  refine ⟨?_, ?_, ?_, ?_⟩
  · intro hall
    have herr : ∀ i, ∃ ra', attemptStep dateParse nowMs (opts.timeout.getD client.timeout)
        emptyVal (outcomes i) = .retry (respErrOf (outcomes i)) ra' := by
      intro i
      obtain ⟨s, okb, eb, ra, ho, hok, hr⟩ := hall i
      refine ⟨if s = 429 then retryAfterOf dateParse nowMs ra else 0, ?_⟩
      rw [ho, attemptStep_retryable dateParse nowMs (opts.timeout.getD client.timeout)
        emptyVal hok hr]
      rfl
    have h := requestLoop_all_retry outcomes jitter dateParse nowMs client.maxRetries
      (opts.timeout.getD client.timeout)
      (buildHeaders client opts.headers
        (if method ∈ MUTATING_METHODS then some genKey else none))
      emptyVal (fun i => respErrOf (outcomes i)) herr client.maxRetries 0 none [] []
    simp only [Nat.zero_add] at h
    rw [HttpClient.request_def]
    exact h
  · intro s okb eb ra h0 hok hnr hpos
    rw [HttpClient.request_def, requestLoop_succ, h0,
      attemptStep_nonretryable dateParse nowMs (opts.timeout.getD client.timeout)
        emptyVal hok hnr hpos]
    exact ⟨rfl, rfl⟩
  · intro okb eb ra h0
    rw [HttpClient.request_def, requestLoop_succ, h0,
      attemptStep_ok dateParse nowMs (opts.timeout.getD client.timeout)
        emptyVal (by decide)]
    exact ⟨rfl, rfl⟩
  · intro s v eb ra h0 hok h204
    rw [HttpClient.request_def, requestLoop_succ, h0,
      attemptStep_ok dateParse nowMs (opts.timeout.getD client.timeout) emptyVal hok,
      if_neg h204]
    exact ⟨rfl, rfl⟩

/-- **C3 — counterexample to the unamended claim.**  A response with status
0 is non-2xx and outside the retryable set, yet the catch clause re-raises
only when the caught error's status is *positive*; a status-0 response is
therefore retried — here 2 physical attempts with `maxRetries = 1`, not the
1 attempt the claim requires. -/
theorem request_status_zero_counterexample :
    isOkStatus 0 = false ∧ (0 : Int) ∉ RETRYABLE_STATUS_CODES ∧
    (HttpClient.request
      { apiKey := "k".toList, baseUrl := defaultBaseUrl, timeout := 30000,
        maxRetries := 1, sandbox := false }
      .GET ⟨[], none, none⟩ "u".toList
      (fun _ => FetchResult.response 0 (.error []) none none)
      (fun _ => 0) (fun _ => none) 0 (0 : Nat)).attempts = 2 := by
  exact ⟨rfl, by decide, by decide⟩

/-- Witness for `request_attempt_counts_c3`: an always-429 run with
`maxRetries = 2` makes 3 attempts; a 404 first attempt makes 1; a 200 with
a parsed body returns it at once. -/
theorem request_attempt_counts_c3_witness :
    (HttpClient.request
      { apiKey := "k".toList, baseUrl := defaultBaseUrl, timeout := 30000,
        maxRetries := 2, sandbox := false }
      .GET ⟨[], none, none⟩ "u".toList
      (fun _ => FetchResult.response 429 (.error []) none none)
      (fun _ => 0) (fun _ => none) 0 (0 : Nat)).attempts = 3 ∧
    (HttpClient.request
      { apiKey := "k".toList, baseUrl := defaultBaseUrl, timeout := 30000,
        maxRetries := 2, sandbox := false }
      .GET ⟨[], none, none⟩ "u".toList
      (fun _ => FetchResult.response 404 (.error []) none none)
      (fun _ => 0) (fun _ => none) 0 (0 : Nat)).attempts = 1 ∧
    (HttpClient.request
      { apiKey := "k".toList, baseUrl := defaultBaseUrl, timeout := 30000,
        maxRetries := 2, sandbox := false }
      .GET ⟨[], none, none⟩ "u".toList
      (fun _ => FetchResult.response 200 (.ok (5 : Nat)) none none)
      (fun _ => 0) (fun _ => none) 0 (0 : Nat)).result = .ok 5 :=
  ⟨((request_attempt_counts_c3
      { apiKey := "k".toList, baseUrl := defaultBaseUrl, timeout := 30000,
        maxRetries := 2, sandbox := false }
      .GET ⟨[], none, none⟩ "u".toList
      (fun _ => FetchResult.response 429 (.error []) none none)
      (fun _ => 0) (fun _ => none) 0 (0 : Nat)).1
    (fun _ => ⟨429, .error [], none, none, rfl, by decide, by decide⟩)).1,
   ((request_attempt_counts_c3
      { apiKey := "k".toList, baseUrl := defaultBaseUrl, timeout := 30000,
        maxRetries := 2, sandbox := false }
      .GET ⟨[], none, none⟩ "u".toList
      (fun _ => FetchResult.response 404 (.error []) none none)
      (fun _ => 0) (fun _ => none) 0 (0 : Nat)).2.1 404 (.error []) none none
    rfl (by decide) (by decide) (by decide)).1,
   ((request_attempt_counts_c3
      { apiKey := "k".toList, baseUrl := defaultBaseUrl, timeout := 30000,
        maxRetries := 2, sandbox := false }
      .GET ⟨[], none, none⟩ "u".toList
      (fun _ => FetchResult.response 200 (.ok (5 : Nat)) none none)
      (fun _ => 0) (fun _ => none) 0 (0 : Nat)).2.2.2 200 5 none none
    rfl (by decide) (by decide)).2⟩

/-- **C7.** A transport-level fault records a connection-class Error Value
(status 0, code `connection_error`): a timeout abort with message
`Request timed out after Nms` — `N` the effective per-request timeout
(`opts.timeout ?? client.timeout`) — and any other fault with the generic
`Network error: ...` message; both are treated as retryable (an all-fault
run exhausts every attempt).  A caught error that is itself a previously
classified Error Value with positive status outside the retryable set —
the error the loop throws for a non-retryable response, caught by its own
`catch` — is re-raised immediately with no further attempts. -/
theorem request_transport_faults_c7 {β : Type} (client : HttpClientData)
    (method : HttpMethod) (opts : RequestOptions) (genKey : Str)
    (outcomes : Nat → FetchResult β) (jitter : Nat → ℚ) (dateParse : Str → Option Int)
    (nowMs : Int) (emptyVal : β) :
    ((∀ i, outcomes i = FetchResult.abortError) →
      (HttpClient.request client method opts genKey outcomes jitter dateParse nowMs
          emptyVal).attempts = client.maxRetries + 1 ∧
      (HttpClient.request client method opts genKey outcomes jitter dateParse nowMs
          emptyVal).result =
        .error (PayArkError.generate 0 none
          (some (timeoutMsg (opts.timeout.getD client.timeout)))) ∧
      (PayArkError.generate 0 none
        (some (timeoutMsg (opts.timeout.getD client.timeout)))).statusCode = 0 ∧
      (PayArkError.generate 0 none
        (some (timeoutMsg (opts.timeout.getD client.timeout)))).code = .connection_error)
    ∧ (∀ m : Nat → Str, (∀ i, outcomes i = FetchResult.networkError (m i)) →
      (HttpClient.request client method opts genKey outcomes jitter dateParse nowMs
          emptyVal).attempts = client.maxRetries + 1 ∧
      (HttpClient.request client method opts genKey outcomes jitter dateParse nowMs
          emptyVal).result =
        .error (PayArkError.generate 0 none
          (some (networkMsg (m client.maxRetries)))) ∧
      (PayArkError.generate 0 none
        (some (networkMsg (m client.maxRetries)))).statusCode = 0 ∧
      (PayArkError.generate 0 none
        (some (networkMsg (m client.maxRetries)))).code = .connection_error)
    ∧ (∀ s okb eb ra, outcomes 0 = FetchResult.response s okb eb ra →
        isOkStatus s = false → 0 < s → s ∉ RETRYABLE_STATUS_CODES →
        (HttpClient.request client method opts genKey outcomes jitter dateParse nowMs
            emptyVal).attempts = 1 ∧
        (HttpClient.request client method opts genKey outcomes jitter dateParse nowMs
            emptyVal).result =
          .error (PayArkError.generate s eb (eb.bind (fun b => b.error)))) := by
  refine ⟨?_, ?_, ?_⟩
  · intro hab
    have herr : ∀ i, ∃ ra', attemptStep dateParse nowMs (opts.timeout.getD client.timeout)
        emptyVal (outcomes i) =
        .retry (PayArkError.generate 0 none
          (some (timeoutMsg (opts.timeout.getD client.timeout)))) ra' := by
      intro i
      rw [hab i]
      exact ⟨0, rfl⟩
    have h := requestLoop_all_retry outcomes jitter dateParse nowMs client.maxRetries
      (opts.timeout.getD client.timeout)
      (buildHeaders client opts.headers
        (if method ∈ MUTATING_METHODS then some genKey else none))
      emptyVal (fun _ => PayArkError.generate 0 none
        (some (timeoutMsg (opts.timeout.getD client.timeout)))) herr
      client.maxRetries 0 none [] []
    simp only [Nat.zero_add] at h
    rw [HttpClient.request_def]
    exact ⟨h.1, h.2, rfl, rfl⟩
  · intro m hnet
    have herr : ∀ i, ∃ ra', attemptStep dateParse nowMs (opts.timeout.getD client.timeout)
        emptyVal (outcomes i) =
        .retry (PayArkError.generate 0 none (some (networkMsg (m i)))) ra' := by
      intro i
      rw [hnet i]
      exact ⟨0, rfl⟩
    have h := requestLoop_all_retry outcomes jitter dateParse nowMs client.maxRetries
      (opts.timeout.getD client.timeout)
      (buildHeaders client opts.headers
        (if method ∈ MUTATING_METHODS then some genKey else none))
      emptyVal (fun i => PayArkError.generate 0 none (some (networkMsg (m i)))) herr
      client.maxRetries 0 none [] []
    simp only [Nat.zero_add] at h
    rw [HttpClient.request_def]
    exact ⟨h.1, h.2, rfl, rfl⟩
  · intro s okb eb ra h0 hok hpos hnr
    rw [HttpClient.request_def, requestLoop_succ, h0,
      attemptStep_nonretryable dateParse nowMs (opts.timeout.getD client.timeout)
        emptyVal hok hnr hpos]
    exact ⟨rfl, rfl⟩

/-- Witness for `request_transport_faults_c7`: an all-timeout run with
`maxRetries = 1` makes 2 attempts and surfaces the timeout message; a 404
first attempt is re-raised after exactly 1 attempt. -/
theorem request_transport_faults_c7_witness :
    (HttpClient.request
      { apiKey := "k".toList, baseUrl := defaultBaseUrl, timeout := 30000,
        maxRetries := 1, sandbox := false }
      .GET ⟨[], none, none⟩ "u".toList (fun _ => FetchResult.abortError)
      (fun _ => 0) (fun _ => none) 0 (0 : Nat)).result =
      .error (PayArkError.generate 0 none (some (timeoutMsg 30000))) ∧
    (HttpClient.request
      { apiKey := "k".toList, baseUrl := defaultBaseUrl, timeout := 30000,
        maxRetries := 1, sandbox := false }
      .GET ⟨[], none, none⟩ "u".toList
      (fun _ => FetchResult.response 404 (.error []) none none)
      (fun _ => 0) (fun _ => none) 0 (0 : Nat)).attempts = 1 :=
  ⟨((request_transport_faults_c7
      { apiKey := "k".toList, baseUrl := defaultBaseUrl, timeout := 30000,
        maxRetries := 1, sandbox := false }
      .GET ⟨[], none, none⟩ "u".toList (fun _ => FetchResult.abortError)
      (fun _ => 0) (fun _ => none) 0 (0 : Nat)).1 (fun _ => rfl)).2.1,
   ((request_transport_faults_c7
      { apiKey := "k".toList, baseUrl := defaultBaseUrl, timeout := 30000,
        maxRetries := 1, sandbox := false }
      .GET ⟨[], none, none⟩ "u".toList
      (fun _ => FetchResult.response 404 (.error []) none none)
      (fun _ => 0) (fun _ => none) 0 (0 : Nat)).2.2 404 (.error []) none none
    rfl (by decide) (by decide) (by decide)).1⟩

/-- **C5 (amended).** Between consecutive physical attempts the loop sleeps
the server-directed delay when the failing response was a 429 whose
`Retry-After` computes to a *positive* delay — an all-digits value `r`
gives `r * 1000` ms, any other value parsed as an HTTP date gives
`max(0, date − now)` ms — and otherwise (including a zero server-directed
delay, see the counterexample to the unamended claim) exponential back-off
`500·2^attemptIndex` plus the jitter draw, which lies in
`[base, base + 200)` when the jitter lies in `[0, 200)`; in particular a
429 with `Retry-After: 2` delays the next attempt by exactly 2000 ms
≥ 2000 ms. -/
theorem request_sleep_delays_c5 {β : Type} (client : HttpClientData) (method : HttpMethod)
    (opts : RequestOptions) (genKey : Str) (outcomes : Nat → FetchResult β)
    (jitter : Nat → ℚ) (dateParse : Str → Option Int) (nowMs : Int) (emptyVal : β) :
    (∀ i, i + 1 < (HttpClient.request client method opts genKey outcomes jitter dateParse
        nowMs emptyVal).attempts →
      (HttpClient.request client method opts genKey outcomes jitter dateParse nowMs
        emptyVal).sleeps.get? i =
        some (attemptDelay outcomes jitter dateParse nowMs
          (opts.timeout.getD client.timeout) emptyVal i))
    ∧ (∀ i okb eb h, outcomes i = FetchResult.response 429 okb eb (some h) →
        h.all isDigitChar = true → 0 < digitsVal h →
        i + 1 < (HttpClient.request client method opts genKey outcomes jitter dateParse
          nowMs emptyVal).attempts →
        (HttpClient.request client method opts genKey outcomes jitter dateParse nowMs
          emptyVal).sleeps.get? i = some (((digitsVal h : Int) * 1000 : Int) : ℚ))
    ∧ (∀ i okb eb h d, outcomes i = FetchResult.response 429 okb eb (some h) →
        h ≠ [] → h.all isDigitChar = false → dateParse h = some d → nowMs < d →
        i + 1 < (HttpClient.request client method opts genKey outcomes jitter dateParse
          nowMs emptyVal).attempts →
        (HttpClient.request client method opts genKey outcomes jitter dateParse nowMs
          emptyVal).sleeps.get? i = some ((max 0 (d - nowMs) : Int) : ℚ))
    ∧ (∀ i e, attemptStep dateParse nowMs (opts.timeout.getD client.timeout) emptyVal
          (outcomes i) = .retry e 0 →
        i + 1 < (HttpClient.request client method opts genKey outcomes jitter dateParse
          nowMs emptyVal).attempts →
        (HttpClient.request client method opts genKey outcomes jitter dateParse nowMs
          emptyVal).sleeps.get? i = some (((500 * 2 ^ i : Nat) : ℚ) + jitter i) ∧
        (0 ≤ jitter i → jitter i < 200 →
          ((500 * 2 ^ i : Nat) : ℚ) ≤ ((500 * 2 ^ i : Nat) : ℚ) + jitter i ∧
          ((500 * 2 ^ i : Nat) : ℚ) + jitter i < ((500 * 2 ^ i : Nat) : ℚ) + 200))
    ∧ (∀ i okb eb, outcomes i = FetchResult.response 429 okb eb (some "2".toList) →
        i + 1 < (HttpClient.request client method opts genKey outcomes jitter dateParse
          nowMs emptyVal).attempts →
        (HttpClient.request client method opts genKey outcomes jitter dateParse nowMs
          emptyVal).sleeps.get? i = some ((2000 : Int) : ℚ) ∧
        (2000 : ℚ) ≤ ((2000 : Int) : ℚ)) := by
  obtain ⟨-, -, -, -, tail, ht1, ht2, ht3⟩ := requestLoop_spec outcomes jitter dateParse
    nowMs client.maxRetries (opts.timeout.getD client.timeout)
    (buildHeaders client opts.headers
      (if method ∈ MUTATING_METHODS then some genKey else none))
    emptyVal (client.maxRetries + 1) 0 none [] [] (by omega)
  rw [List.nil_append] at ht1
  have key : ∀ i, i + 1 < (HttpClient.request client method opts genKey outcomes jitter
      dateParse nowMs emptyVal).attempts →
      (HttpClient.request client method opts genKey outcomes jitter dateParse nowMs
        emptyVal).sleeps.get? i =
        some (attemptDelay outcomes jitter dateParse nowMs
          (opts.timeout.getD client.timeout) emptyVal i) := by
    intro i hi
    rw [HttpClient.request_def] at hi ⊢
    rw [ht1]
    have hlen : i < tail.length := by
      rw [ht2]
      omega
    have := ht3 i hlen
    rw [Nat.zero_add] at this
    exact this
  have hstep429 : ∀ (i : Nat) (okb : Except Str β) (eb : Option PayArkErrorBody) (h : Str),
      outcomes i = FetchResult.response 429 okb eb (some h) →
      attemptStep dateParse nowMs (opts.timeout.getD client.timeout) emptyVal
        (outcomes i) =
      .retry (PayArkError.generate 429 eb (eb.bind (fun b => b.error)))
        (retryAfterOf dateParse nowMs (some h)) := by
    intro i okb eb h ho
    rw [ho, attemptStep_retryable dateParse nowMs (opts.timeout.getD client.timeout)
      emptyVal (by decide) (by decide), if_pos rfl]
  refine ⟨key, ?_, ?_, ?_, ?_⟩
  · intro i okb eb h ho hdig hpos hi
    have hne : h ≠ [] := by
      intro he
      rw [he] at hpos
      simp [digitsVal] at hpos
    rw [key i hi]
    unfold attemptDelay
    rw [hstep429 i okb eb h ho]
    have hra : retryAfterOf dateParse nowMs (some h) =
        (((digitsVal h : Int) * 1000 : Int) : ℚ) := by
      simp only [retryAfterOf]
      rw [if_neg hne, if_pos hdig]
    dsimp only
    rw [hra, if_pos (by
      refine Int.cast_pos.mpr ?_
      exact mul_pos (by exact_mod_cast hpos) (by norm_num))]
  · intro i okb eb h d ho hne hdig hdate hlt hi
    rw [key i hi]
    unfold attemptDelay
    rw [hstep429 i okb eb h ho]
    have hra : retryAfterOf dateParse nowMs (some h) = ((max 0 (d - nowMs) : Int) : ℚ) := by
      simp only [retryAfterOf]
      rw [if_neg hne, if_neg (by simp [hdig]), hdate]
    have hmax : max (0 : Int) (d - nowMs) = d - nowMs := max_eq_right (by omega)
    dsimp only
    rw [hra, if_pos (by
      refine Int.cast_pos.mpr ?_
      rw [hmax]
      omega)]
  · intro i e hstep hi
    refine ⟨?_, ?_⟩
    · rw [key i hi]
      unfold attemptDelay
      rw [hstep]
      dsimp only
      rw [if_neg (lt_irrefl 0)]
    · intro hj1 hj2
      exact ⟨le_add_of_nonneg_right hj1, by linarith⟩
  · intro i okb eb ho hi
    have h2 : ((digitsVal "2".toList : Int) * 1000 : Int) = 2000 := by decide
    refine ⟨?_, by decide⟩
    have := key i hi
    rw [this]
    unfold attemptDelay
    rw [hstep429 i okb eb "2".toList ho]
    have hra : retryAfterOf dateParse nowMs (some "2".toList) = ((2000 : Int) : ℚ) := by
      simp only [retryAfterOf]
      rw [if_neg (by decide), if_pos (by decide), h2]
    dsimp only
    rw [hra, if_pos (by decide)]

/-- **C5 — counterexample to the unamended claim.**  A 429 carrying
`Retry-After: 0` has a server-directed delay of 0 ms, yet the loop sleeps
the 500 ms exponential back-off (first retry, zero jitter), because a
computed `retryAfterMs` of 0 fails the `retryAfterMs > 0` guard and falls
through to back-off; the claim's unconditional "uses the server-directed
delay when present" is therefore false. -/
theorem request_retry_after_zero_counterexample :
    retryAfterOf (fun _ => none) 0 (some "0".toList) = 0 ∧
    (HttpClient.request
      { apiKey := "k".toList, baseUrl := defaultBaseUrl, timeout := 30000,
        maxRetries := 1, sandbox := false }
      .GET ⟨[], none, none⟩ "u".toList
      (fun _ => FetchResult.response 429 (.error []) none (some "0".toList))
      (fun _ => 0) (fun _ => none) 0 (0 : Nat)).sleeps.get? 0 =
      some (((500 * 2 ^ 0 : Nat) : ℚ) + 0) ∧
    (((500 * 2 ^ 0 : Nat) : ℚ) + 0) ≠ 0 := by
  refine ⟨?_, ?_, by norm_num⟩
  · simp [retryAfterOf, digitsVal]
  · rfl

/-- Witness for `request_sleep_delays_c5`: an always-429 run whose
`Retry-After` header is `2` sleeps exactly 2000 ms before the retry. -/
theorem request_sleep_delays_c5_witness :
    (HttpClient.request
      { apiKey := "k".toList, baseUrl := defaultBaseUrl, timeout := 30000,
        maxRetries := 1, sandbox := false }
      .GET ⟨[], none, none⟩ "u".toList
      (fun _ => FetchResult.response 429 (.error []) none (some "2".toList))
      (fun _ => 0) (fun _ => none) 0 (0 : Nat)).sleeps.get? 0 =
      some ((2000 : Int) : ℚ) := by
  refine ((request_sleep_delays_c5
      { apiKey := "k".toList, baseUrl := defaultBaseUrl, timeout := 30000,
        maxRetries := 1, sandbox := false }
      .GET ⟨[], none, none⟩ "u".toList
      (fun _ => FetchResult.response 429 (.error []) none (some "2".toList))
      (fun _ => 0) (fun _ => none) 0 (0 : Nat)).2.2.2.2 0 (.error []) none rfl ?_).1
  decide

/-- A query fold never touches a key absent from the query list. -/
theorem lookupQueryFold_not_mem (q : List (Str × QueryVal)) (k : Str)
    (hk : ∀ p ∈ q, p.1 ≠ k) (acc : StrPairs) :
    lookupPair (q.foldl (fun ps kv =>
      if isNullish kv.2 then ps else setPair ps kv.1 (jsStringOfQuery kv.2)) acc) k =
    lookupPair acc k := by
  induction q generalizing acc with
  | nil => rfl
  | cons p t ih =>
    rw [List.foldl_cons, ih (fun r hr => hk r (List.mem_cons_of_mem p hr))]
    by_cases hn : isNullish p.2
    · rw [if_pos hn]
    · rw [if_neg hn, lookupPair_setPair,
        if_neg (fun he => hk p (List.mem_cons_self p t) he.symm)]

/-- Under duplicate-free query keys, the fold's entry for a present key:
dropped when the value is nullish, its JS stringification otherwise. -/
theorem lookupQueryFold_mem (q : List (Str × QueryVal)) (k : Str) (v : QueryVal)
    (hnd : (q.map Prod.fst).Nodup) (hm : (k, v) ∈ q) (acc : StrPairs) :
    lookupPair (q.foldl (fun ps kv =>
      if isNullish kv.2 then ps else setPair ps kv.1 (jsStringOfQuery kv.2)) acc) k =
    (if isNullish v then lookupPair acc k else some (jsStringOfQuery v)) := by
  induction q generalizing acc with
  | nil => cases hm
  | cons p t ih =>
    rw [List.map_cons, List.nodup_cons] at hnd
    rcases List.mem_cons.mp hm with he | ht
    · rw [List.foldl_cons]
      have hk : ∀ r ∈ t, r.1 ≠ k := by
        intro r hr hrk
        apply hnd.1
        have hmem : r.1 ∈ t.map Prod.fst := List.mem_map_of_mem Prod.fst hr
        rw [hrk] at hmem
        rw [← he]
        exact hmem
      rw [lookupQueryFold_not_mem t k hk]
      rw [← he]
      by_cases hn : isNullish v
      · rw [if_pos hn, if_pos hn]
      · rw [if_neg hn, if_neg hn, lookupPair_setPair, if_pos rfl]
    · have hpk : p.1 ≠ k := by
        intro hrk
        exact hnd.1 (hrk ▸ List.mem_map_of_mem Prod.fst ht)
      rw [List.foldl_cons, ih hnd.2 ht]
      by_cases hn : isNullish p.2
      · rw [if_pos hn]
      · rw [if_neg hn]
        by_cases hv : isNullish v
        · rw [if_pos hv, if_pos hv, lookupPair_setPair, if_neg (fun he => hpk he.symm)]
        · rw [if_neg hv, if_neg hv]

/-- The constructed URL's base is `baseUrl + path`. -/
theorem buildUrl_base (client : HttpClientData) (path : Str)
    (query : Option (List (Str × QueryVal))) :
    (buildUrl client path query).base = client.baseUrl ++ path := by
  cases query <;> rfl

/-- Unfolding equation for the search parameters of `buildUrl`. -/
theorem buildUrl_params (client : HttpClientData) (path : Str)
    (q : List (Str × QueryVal)) :
    (buildUrl client path (some q)).params = q.foldl (fun ps kv =>
      if isNullish kv.2 then ps else setPair ps kv.1 (jsStringOfQuery kv.2)) [] := rfl

/-- **C8.** For every path and duplicate-free query record, the constructed
URL is `baseUrl + path` plus search parameters in which every
`undefined`/`null`-valued parameter is omitted entirely (its key is absent,
so it is neither encoded as empty nor as the string `undefined`), every
string parameter appears with its value, every numeric parameter appears
rendered as a decimal string, and keys not in the record are absent. -/
theorem buildUrl_query_c8 (client : HttpClientData) (path : Str)
    (q : List (Str × QueryVal)) (hnd : (q.map Prod.fst).Nodup) :
    (buildUrl client path (some q)).base = client.baseUrl ++ path ∧
    (∀ k v, (k, v) ∈ q → isNullish v = true →
      lookupPair (buildUrl client path (some q)).params k = none) ∧
    (∀ k s, (k, QueryVal.str s) ∈ q →
      lookupPair (buildUrl client path (some q)).params k = some s) ∧
    (∀ k n, (k, QueryVal.num n) ∈ q →
      lookupPair (buildUrl client path (some q)).params k = some (intToStr n)) ∧
    (∀ k, (∀ p ∈ q, p.1 ≠ k) →
      lookupPair (buildUrl client path (some q)).params k = none) := by
  refine ⟨buildUrl_base client path (some q), ?_, ?_, ?_, ?_⟩
  · intro k v hm hnull
    rw [buildUrl_params, lookupQueryFold_mem q k v hnd hm [], if_pos hnull]
    rfl
  · intro k s hm
    rw [buildUrl_params, lookupQueryFold_mem q k (QueryVal.str s) hnd hm []]
    simp [isNullish, jsStringOfQuery]
  · intro k n hm
    rw [buildUrl_params, lookupQueryFold_mem q k (QueryVal.num n) hnd hm []]
    simp [isNullish, jsStringOfQuery]
  · intro k hk
    rw [buildUrl_params, lookupQueryFold_not_mem q k hk]
    rfl

/-- Witness for `buildUrl_query_c8`: a concrete query with a string, a
number, an `undefined` and a `null` parameter. -/
theorem buildUrl_query_c8_witness :
    lookupPair (buildUrl
      { apiKey := "k".toList, baseUrl := defaultBaseUrl, timeout := 30000,
        maxRetries := 2, sandbox := false } "/v1/payments".toList
      (some [("limit".toList, QueryVal.num 25), ("status".toList, QueryVal.str "paid".toList),
             ("cursor".toList, QueryVal.undef), ("customer".toList, QueryVal.nul)])).params
      "cursor".toList = none ∧
    lookupPair (buildUrl
      { apiKey := "k".toList, baseUrl := defaultBaseUrl, timeout := 30000,
        maxRetries := 2, sandbox := false } "/v1/payments".toList
      (some [("limit".toList, QueryVal.num 25), ("status".toList, QueryVal.str "paid".toList),
             ("cursor".toList, QueryVal.undef), ("customer".toList, QueryVal.nul)])).params
      "customer".toList = none ∧
    lookupPair (buildUrl
      { apiKey := "k".toList, baseUrl := defaultBaseUrl, timeout := 30000,
        maxRetries := 2, sandbox := false } "/v1/payments".toList
      (some [("limit".toList, QueryVal.num 25), ("status".toList, QueryVal.str "paid".toList),
             ("cursor".toList, QueryVal.undef), ("customer".toList, QueryVal.nul)])).params
      "status".toList = some "paid".toList ∧
    lookupPair (buildUrl
      { apiKey := "k".toList, baseUrl := defaultBaseUrl, timeout := 30000,
        maxRetries := 2, sandbox := false } "/v1/payments".toList
      (some [("limit".toList, QueryVal.num 25), ("status".toList, QueryVal.str "paid".toList),
             ("cursor".toList, QueryVal.undef), ("customer".toList, QueryVal.nul)])).params
      "limit".toList = some (intToStr 25) ∧
    lookupPair (buildUrl
      { apiKey := "k".toList, baseUrl := defaultBaseUrl, timeout := 30000,
        maxRetries := 2, sandbox := false } "/v1/payments".toList
      (some [("limit".toList, QueryVal.num 25), ("status".toList, QueryVal.str "paid".toList),
             ("cursor".toList, QueryVal.undef), ("customer".toList, QueryVal.nul)])).params
      "absent".toList = none :=
  ⟨(buildUrl_query_c8 _ _ _ (by decide)).2.1 "cursor".toList QueryVal.undef (by decide) rfl,
   (buildUrl_query_c8 _ _ _ (by decide)).2.1 "customer".toList QueryVal.nul (by decide) rfl,
   (buildUrl_query_c8 _ _ _ (by decide)).2.2.1 "status".toList "paid".toList (by decide),
   (buildUrl_query_c8 _ _ _ (by decide)).2.2.2.1 "limit".toList 25 (by decide),
   (buildUrl_query_c8 _ _ _ (by decide)).2.2.2.2 "absent".toList (by decide)⟩

/-- **C10 (amended).** Constructing the transport with an `apiKey` that is
absent, empty, or all-whitespace fails — before any request is made — with
exactly the generated 401 `PayArkAuthenticationError`
(`statusCode = 401`, `code = authentication_error`, the constructor's
message); for every other `apiKey` construction succeeds, stores the
trimmed key, and every attempt of every request sends
`Authorization: Bearer <trimmed key>` — provided the caller's extra
headers do not themselves set `Authorization`, which `Object.assign`
applies last (see the counterexample to the unamended claim). -/
theorem mkHttpClient_apiKey_c10 (config : PayArkConfig) :
    (config.apiKey = none ∨ config.apiKey = some [] ∨
        trimJS (config.apiKey.getD []) = [] →
      ∃ e, mkHttpClient config = .error e ∧ e.statusCode = 401 ∧
        e.code = PayArkErrorCode.authentication_error ∧
        e.name = "PayArkAuthenticationError".toList ∧
        e.message = apiKeyRequiredMsg)
    ∧ (∀ s, config.apiKey = some s → trimJS s ≠ [] →
        ∃ c, mkHttpClient config = .ok c ∧ c.apiKey = trimJS s ∧
          ∀ (β : Type) (method : HttpMethod) (opts : RequestOptions) (genKey : Str)
            (outcomes : Nat → FetchResult β) (jitter : Nat → ℚ)
            (dateParse : Str → Option Int) (nowMs : Int) (emptyVal : β) (hs : StrPairs),
            (∀ ps, opts.headers = some ps → ∀ p ∈ ps, p.1 ≠ "Authorization".toList) →
            hs ∈ (HttpClient.request c method opts genKey outcomes jitter dateParse
              nowMs emptyVal).sentHeaders →
            lookupPair hs "Authorization".toList =
              some ("Bearer ".toList ++ trimJS s)) := by
  constructor
  · intro h
    rw [mkHttpClient, if_pos h]
    exact ⟨_, rfl, by decide, by decide, by decide, by decide⟩
  · intro s hsk htrim
    have hcond : ¬ (config.apiKey = none ∨ config.apiKey = some [] ∨
        trimJS (config.apiKey.getD []) = []) := by
      rw [hsk]
      push_neg
      refine ⟨by simp, ?_, by simpa using htrim⟩
      intro he
      apply htrim
      rw [Option.some.inj he]
      rfl
    rw [mkHttpClient, if_neg hcond]
    refine ⟨_, rfl, by rw [hsk]; rfl, ?_⟩
    intro β method opts genKey outcomes jitter dateParse nowMs emptyVal hs hnov hmem
    rw [request_sentHeaders] at hmem
    rw [List.eq_of_mem_replicate hmem,
      buildHeaders_lookup_auth _ opts.headers _ hnov, hsk]
    rfl

/-- **C10 — counterexample to the unamended claim.**  A valid key is
trimmed and stored, yet a caller-supplied `Authorization: X` header
override is assigned after the defaults, so the request sends `X`, not
`Bearer sk_live_1`. -/
theorem mkHttpClient_auth_override_counterexample :
    mkHttpClient
      { apiKey := some " sk_live_1 ".toList, baseUrl := none,
        timeout := none, maxRetries := none, sandbox := none } =
      .ok { apiKey := "sk_live_1".toList, baseUrl := defaultBaseUrl, timeout := 30000,
            maxRetries := 2, sandbox := false } ∧
    lookupPair
      ((HttpClient.request
        { apiKey := "sk_live_1".toList, baseUrl := defaultBaseUrl, timeout := 30000,
          maxRetries := 2, sandbox := false }
        .GET ⟨[], some [("Authorization".toList, "X".toList)], none⟩ "u".toList
        (fun _ => FetchResult.response 200 (.ok (0 : Nat)) none none)
        (fun _ => 0) (fun _ => none) 0 0).sentHeaders.headI)
      "Authorization".toList = some "X".toList ∧
    some "X".toList ≠ some ("Bearer sk_live_1".toList) := by
  exact ⟨by decide, by decide, by decide⟩

/-- Witness for `mkHttpClient_apiKey_c10`: an all-whitespace key yields
exactly the generated 401 authentication error; ` sk_live_1 ` is stored
trimmed and a GET request sends `Authorization: Bearer sk_live_1`. -/
theorem mkHttpClient_apiKey_c10_witness :
    mkHttpClient
      { apiKey := some "   ".toList, baseUrl := none,
        timeout := none, maxRetries := none, sandbox := none } =
      .error (PayArkError.generate 401 none (some apiKeyRequiredMsg)) ∧
    (PayArkError.generate 401 none (some apiKeyRequiredMsg)).statusCode = 401 ∧
    (PayArkError.generate 401 none (some apiKeyRequiredMsg)).code =
      PayArkErrorCode.authentication_error ∧
    mkHttpClient
      { apiKey := some " sk_live_1 ".toList, baseUrl := none,
        timeout := none, maxRetries := none, sandbox := none } =
      .ok { apiKey := "sk_live_1".toList, baseUrl := defaultBaseUrl, timeout := 30000,
            maxRetries := 2, sandbox := false } ∧
    lookupPair
      ((HttpClient.request
        { apiKey := "sk_live_1".toList, baseUrl := defaultBaseUrl, timeout := 30000,
          maxRetries := 2, sandbox := false }
        .GET ⟨[], none, none⟩ "u".toList
        (fun _ => FetchResult.response 200 (.ok (0 : Nat)) none none)
        (fun _ => 0) (fun _ => none) 0 0).sentHeaders.headI)
      "Authorization".toList =
      some ("Bearer ".toList ++ trimJS " sk_live_1 ".toList) := by
  have herr0 : mkHttpClient
      { apiKey := some "   ".toList, baseUrl := none,
        timeout := none, maxRetries := none, sandbox := none } =
      .error (PayArkError.generate 401 none (some apiKeyRequiredMsg)) := by decide
  obtain ⟨e, he, h1, h2, -, -⟩ :=
    (mkHttpClient_apiKey_c10
      { apiKey := some "   ".toList, baseUrl := none,
        timeout := none, maxRetries := none, sandbox := none }).1
      (Or.inr (Or.inr (by decide)))
  have hee : PayArkError.generate 401 none (some apiKeyRequiredMsg) = e :=
    Except.error.inj (herr0.symm.trans he)
  obtain ⟨c, hc, -, hh⟩ :=
    (mkHttpClient_apiKey_c10
      { apiKey := some " sk_live_1 ".toList, baseUrl := none,
        timeout := none, maxRetries := none, sandbox := none }).2
      " sk_live_1 ".toList rfl (by decide)
  have hok0 : mkHttpClient
      { apiKey := some " sk_live_1 ".toList, baseUrl := none,
        timeout := none, maxRetries := none, sandbox := none } =
      .ok { apiKey := "sk_live_1".toList, baseUrl := defaultBaseUrl, timeout := 30000,
            maxRetries := 2, sandbox := false } := by decide
  have hcc : c =
      { apiKey := "sk_live_1".toList, baseUrl := defaultBaseUrl,
        timeout := 30000, maxRetries := 2, sandbox := false } :=
    Except.ok.inj (hc.symm.trans hok0)
  refine ⟨herr0, hee ▸ h1, hee ▸ h2, hok0, ?_⟩
  rw [← hcc]
  exact hh Nat .GET ⟨[], none, none⟩ "u".toList
    (fun _ => FetchResult.response 200 (.ok (0 : Nat)) none none)
    (fun _ => 0) (fun _ => none) 0 0 _
    (fun ps hps => by cases hps)
    (by rw [hcc]; decide)

end PayArk
